import Mathlib

/-!
git-doc-hook — verification of spec claims

Shallow embedding of the core of the `git-doc-hook` repository:
* the glob matcher (`src/git_doc_hook/core/config.py`, `glob_match`),
* the document mutation engine (`src/git_doc_hook/updaters.py`, `DocumentUpdater`),
* the analyzer framework (`src/analyzers/__init__.py`, `base.py`, `python.py`).

Python strings are modelled as Lean `String` (with char-list based helper
functions mirroring the Python string methods used by the code); the single
target file of a mutation is modelled as an explicit state value; fallible
filesystem writes return `Except`.
-/

namespace GitDocHook

/-! ## Python string primitives

Each helper mirrors the Python `str` method of the same name as used by the
repository.  All are structural recursions over the character list so that
concrete instances evaluate by `decide`/`rfl`. -/

/-- Characters stripped by Python `str.strip()` / `str.rstrip()` (the ASCII
whitespace actually occurring in the repository's data). -/
def pyWs (c : Char) : Bool :=
  c = ' ' || c = '\t' || c = '\n' || c = '\r' || c = '\x0b' || c = '\x0c'

def dropWhileWs : List Char → List Char
  | [] => []
  | c :: cs => if pyWs c then dropWhileWs cs else c :: cs

/-- Python `str.strip()`. -/
def pyStrip (s : String) : String :=
  ⟨((dropWhileWs s.data.reverse).reverse) |> dropWhileWs⟩

/-- Python `str.rstrip()`. -/
def pyRstrip (s : String) : String :=
  ⟨(dropWhileWs s.data.reverse).reverse⟩

/-- Python `str.lower()` (ASCII, as used on ASCII section names/keywords). -/
def pyLower (s : String) : String :=
  ⟨s.data.map Char.toLower⟩

def isPrefixCh : List Char → List Char → Bool
  | [], _ => true
  | _ :: _, [] => false
  | p :: ps, c :: cs => p = c && isPrefixCh ps cs

/-- Python `s.startswith(p)`. -/
def pyStartsWith (s p : String) : Bool :=
  isPrefixCh p.data s.data

def isInfixCh : List Char → List Char → Bool
  | n, [] => n.isEmpty
  | n, h@(_ :: t) => isPrefixCh n h || isInfixCh n t

/-- Python `needle in hay` (substring containment). -/
def pyIn (needle hay : String) : Bool :=
  isInfixCh needle.data hay.data

def splitChAux (sep : Char) : List Char → List Char → List (List Char)
  | [], acc => [acc.reverse]
  | c :: cs, acc =>
    if c = sep then acc.reverse :: splitChAux sep cs [] else splitChAux sep cs (c :: acc)

/-- Python `s.split(sep)` for a one-character separator. -/
def pySplitCh (sep : Char) (s : String) : List String :=
  (splitChAux sep s.data []).map String.mk

/-- Python `s.split("\n")`. -/
def pySplitLines (s : String) : List String := pySplitCh '\n' s

def joinChAux (sep : Char) : List (List Char) → List Char
  | [] => []
  | [l] => l
  | l :: ls => l ++ sep :: joinChAux sep ls

/-- Python `sep.join(lines)` for `sep = "\n"`. -/
def pyJoinLines (ls : List String) : String :=
  ⟨joinChAux '\n' (ls.map String.data)⟩

/-- Python `list.insert(i, x)` (clamps the index at the length). -/
def pyInsertAt : List α → Nat → α → List α
  | l, 0, x => x :: l
  | [], _ + 1, x => [x]
  | h :: t, i + 1, x => h :: pyInsertAt t i x

/-- Python slice assignment `l[a:b] = xs` for non-negative indices. -/
def pySliceAssign (l : List α) (a b : Nat) (xs : List α) : List α :=
  let a' := min a l.length
  let b' := max a' (min b l.length)
  l.take a' ++ xs ++ l.drop b'

/-! ## Glob matcher (`src/git_doc_hook/core/config.py`, `glob_match`)

The Python function builds an anchored regular expression from the pattern by
textual replacement on `re.escape(pattern)` and then calls `re.match`.  We
mirror the character-level pipeline exactly and interpret the resulting regex
text (which only ever contains literals, `.`, `.*`, `[^/]*` and `(?:/.*)?`)
with a small matcher. -/

/-- The characters escaped by Python `re.escape` (3.7+). -/
def reEscapeSpecial (c : Char) : Bool :=
  c = '(' || c = ')' || c = '[' || c = ']' || c = '{' || c = '}' ||
  c = '?' || c = '*' || c = '+' || c = '-' || c = '|' || c = '^' ||
  c = '$' || c = '\\' || c = '.' || c = '&' || c = '~' || c = '#' ||
  c = ' ' || c = '\t' || c = '\n' || c = '\r' || c = '\x0b' || c = '\x0c'

/-- Python `re.escape`. -/
def reEscape : List Char → List Char
  | [] => []
  | c :: cs => if reEscapeSpecial c then '\\' :: c :: reEscape cs else c :: reEscape cs

def replaceAllAux (tgt rep : List Char) : Nat → List Char → List Char
  | 0, s => s
  | _ + 1, [] => []
  | fuel + 1, s@(c :: cs) =>
    if isPrefixCh tgt s then rep ++ replaceAllAux tgt rep fuel (s.drop tgt.length)
    else c :: replaceAllAux tgt rep fuel cs

/-- Python `s.replace(tgt, rep)` (left-to-right, non-overlapping; `tgt ≠ ""`
in every use below). -/
def replaceAll (tgt rep s : List Char) : List Char :=
  replaceAllAux tgt rep s.length s

/-- The regex fragments produced by the `glob_match` translation. -/
inductive RElem : Type
  | lit (c : Char)
  | anyChar      -- `.`
  | anyRun       -- `.*`
  | nonSepRun    -- `[^/]*`
  | optSlashAny  -- `(?:/.*)?`
  deriving DecidableEq, Repr

/-- Tokenize the regex text built by `glob_match`. -/
def parseRegex : List Char → List RElem
  | [] => []
  | '\\' :: c :: rest => .lit c :: parseRegex rest
  | '[' :: '^' :: '/' :: ']' :: '*' :: rest => .nonSepRun :: parseRegex rest
  | '(' :: '?' :: ':' :: '/' :: '.' :: '*' :: ')' :: '?' :: rest =>
    .optSlashAny :: parseRegex rest
  | '.' :: '*' :: rest => .anyRun :: parseRegex rest
  | '.' :: rest => .anyChar :: parseRegex rest
  | c :: rest => .lit c :: parseRegex rest

/-- Interpreter for the tokenized regex, anchored at both ends; Python `$`
also accepts a single trailing newline, and `.` never matches a newline. -/
def rmatch : Nat → List RElem → List Char → Bool
  | 0, _, _ => false
  | _ + 1, [], s => s.isEmpty || s = ['\n']
  | _ + 1, .lit _ :: _, [] => false
  | fuel + 1, .lit c :: es, x :: xs => x = c && rmatch fuel es xs
  | _ + 1, .anyChar :: _, [] => false
  | fuel + 1, .anyChar :: es, x :: xs => x ≠ '\n' && rmatch fuel es xs
  | fuel + 1, .anyRun :: es, s =>
    rmatch fuel es s ||
      (match s with
       | x :: xs => x ≠ '\n' && rmatch fuel (.anyRun :: es) xs
       | [] => false)
  | fuel + 1, .nonSepRun :: es, s =>
    rmatch fuel es s ||
      (match s with
       | x :: xs => x ≠ '/' && rmatch fuel (.nonSepRun :: es) xs
       | [] => false)
  | fuel + 1, .optSlashAny :: es, s =>
    rmatch fuel es s ||
      (match s with
       | '/' :: xs => rmatch fuel (.anyRun :: es) xs
       | _ => false)

/-- `glob_match(pattern, path)` from `src/git_doc_hook/core/config.py`. -/
def glob_match (pattern path : String) : Bool :=
  let elems : List RElem :=
    if pyStartsWith pattern "**/" then
      -- leading `**/`: regex is `^.*` + escaped rest with `\*`→`[^/]*`, `\?`→`.`
      let rest := pattern.data.drop 3
      let escaped := replaceAll ['\\', '?'] ['.']
        (replaceAll ['\\', '*'] ['[', '^', '/', ']', '*'] (reEscape rest))
      .anyRun :: parseRegex escaped
    else
      let r := reEscape pattern.data
      let r := replaceAll ['/', '\\', '*', '\\', '*', '/']
        ['(', '?', ':', '/', '.', '*', ')', '?'] r
      let r := replaceAll ['\\', '*', '\\', '*'] ['.', '*'] r
      let r := replaceAll ['\\', '*'] ['[', '^', '/', ']', '*'] r
      let r := replaceAll ['\\', '?'] ['.'] r
      parseRegex r
  rmatch (elems.length + path.data.length + 1) elems path.data

/-! ## Document mutation engine (`src/git_doc_hook/updaters.py`)

`DocumentUpdater` methods mutate one target file.  We model the filesystem
state visible to a mutation call as the content of the target file plus the
content of its `.bak` backup; `write_text` is fallible (permission denied is
modelled by `writable = false`) and, exactly as in the source, nothing
catches the resulting exception, so it surfaces as `Except.error`.
`shutil.copy2` in `_backup_file` is modelled as an infallible copy. -/

/-- The runtime error a failing `Path.write_text` raises. -/
inductive PyErr : Type
  | permissionError
  deriving DecidableEq, Repr

/-- `UpdateResult` dataclass. -/
structure UpdateResult where
  success : Bool
  target_file : String
  action : String
  message : String := ""
  backup_path : Option String := none
  deriving DecidableEq, Repr

/-- `DocumentUpdater` configuration plus the ambient filesystem facts a call
depends on: the target path string and whether the target can be written. -/
structure UpdEnv where
  dry_run : Bool := false
  backup : Bool := true
  writable : Bool := true
  target_file : String := "README.md"
  deriving DecidableEq, Repr

/-- Filesystem state: content of the target file (`none` = file absent) and
of its `.bak` sibling. -/
structure FsState where
  target : Option String := none
  bak : Option String := none
  deriving DecidableEq, Repr

/-- `Path.write_text`: raises when the target cannot be written. -/
def write_text (env : UpdEnv) (content : String) (fs : FsState) :
    Except PyErr FsState :=
  if env.writable then .ok { fs with target := some content }
  else .error .permissionError

/-- `DocumentUpdater._backup_file`: copies the target to `<name>.bak` and
returns the backup path — a return value every caller discards. -/
def backup_file (env : UpdEnv) (fs : FsState) : Option String × FsState :=
  if env.backup && fs.target.isSome then
    (some (env.target_file ++ ".bak"), { fs with bak := fs.target })
  else (none, fs)

/-- Python truthiness of `table_headers or list(row_data.keys())`. -/
def headersOrKeys (tableHeaders : Option (List String)) (keys : List String) :
    List String :=
  match tableHeaders with
  | some h => if h.isEmpty then keys else h
  | none => keys

/-- A Python `Dict[str, str]` in insertion order. -/
abbrev PyDict := List (String × String)

/-- `row_data.get(h, "")` (first binding of the key wins, as in a dict). -/
def dictGet (d : PyDict) (k : String) : String :=
  ((d.find? (fun kv => kv.1 = k)).map (·.2)).getD ""

def dictKeys (d : PyDict) : List String := d.map (·.1)

def dictValues (d : PyDict) : List String := d.map (·.2)

/-- Whether `lines[i].strip()` equals one of the three case-insensitive
section header patterns for `section` (`_find_section_index` body). -/
def matchesSection (sec line : String) : Bool :=
  let l := pyLower (pyStrip line)
  l = pyLower ("## " ++ sec) || l = pyLower ("### " ++ sec) ||
    l = pyLower ("#### " ++ sec)

/-- Index of the first element satisfying `p`. -/
def idxFind (p : String → Bool) : List String → Option Nat
  | [] => none
  | l :: ls => if p l then some 0 else (idxFind p ls).map (· + 1)

/-- First index `i ≥ start` with `p lines[i]` — the `for i in range(start,
len(lines))` loops of `updaters.py`. -/
def findFrom (p : String → Bool) (lines : List String) (start : Nat) :
    Option Nat :=
  (idxFind p (lines.drop start)).map (· + start)

/-- `DocumentUpdater._find_section_index`. -/
def find_section_index (lines : List String) (sec : String)
    (start : Nat := 0) : Option Nat :=
  findFrom (matchesSection sec) lines start

/-- `DocumentUpdater._find_next_section_index`. -/
def find_next_section_index (lines : List String) (start : Nat := 0) :
    Option Nat :=
  findFrom (fun l => pyStartsWith l "##") lines start

def isTableLine (l : String) : Bool := pyStartsWith (pyStrip l) "|"

def isSectionLine (l : String) : Bool := pyStartsWith (pyStrip l) "##"

/-- `DocumentUpdater._find_table_after_section`. -/
def find_table_after_section (lines : List String) (sectionIndex : Nat) :
    Option Nat :=
  match findFrom (fun l => isTableLine l || isSectionLine l) lines
      (sectionIndex + 1) with
  | some i => if isTableLine (lines.getD i "") then some i else none
  | none => none

/-- `DocumentUpdater._find_table_end`. -/
def find_table_end (lines : List String) (tableStart : Nat) : Nat :=
  (findFrom (fun l => !(isTableLine l)) lines (tableStart + 1)).getD
    lines.length

def allDash (s : String) : Bool := s.data.all (· = '-')

/-- `DocumentUpdater._parse_table_row`. -/
def parse_table_row (row : String) : List String :=
  (pySplitCh '|' row).filterMap (fun cell =>
    let c := pyStrip cell
    if c ≠ "" && !(allDash c) then some c else none)

def joinStr (sep : String) : List String → String
  | [] => ""
  | [x] => x
  | x :: xs => x ++ sep ++ joinStr sep xs

/-- `DocumentUpdater._format_table_row`. -/
def format_table_row (cells : List String) : String :=
  "| " ++ joinStr " | " cells ++ " |"

/-- `DocumentUpdater._format_table_separator`. -/
def format_table_separator (numCols : Nat) : String :=
  "| " ++ joinStr " | " (List.replicate numCols "---") ++ " |"

/-- `DocumentUpdater._row_exists`: scans `lines[table_start : min(table_end,
len(lines))]` for a line containing the first value of `row_data`. -/
def row_exists (lines : List String) (tableStart tableEnd : Nat)
    (rowData : PyDict) : Bool :=
  let firstValue := (dictValues rowData).headD ""
  ((lines.drop tableStart).take (min tableEnd lines.length - tableStart)).any
    (fun l => pyIn firstValue l)

/-- `DocumentUpdater._write_file`: backup (result discarded), then an
uncaught `write_text`. -/
def write_file (env : UpdEnv) (fs : FsState) (lines : List String)
    (action : String) : Except PyErr (UpdateResult × FsState) :=
  if env.dry_run then
    .ok ({ success := true, target_file := env.target_file, action := action,
           message := "Dry run - no changes made" }, fs)
  else
    let fs₁ := (backup_file env fs).2
    match write_text env (pyJoinLines lines) fs₁ with
    | .ok fs₂ =>
      .ok ({ success := true, target_file := env.target_file,
             action := action, message := "File updated successfully" }, fs₂)
    | .error e => .error e

/-- `DocumentUpdater._create_table_file` (target absent; direct
`write_text`, no backup). -/
def create_table_file (env : UpdEnv) (sec : String) (rowData : PyDict)
    (tableHeaders : Option (List String)) (fs : FsState) :
    Except PyErr (UpdateResult × FsState) :=
  let headers := headersOrKeys tableHeaders (dictKeys rowData)
  let lines := ["# Documentation", "", "## " ++ sec, "",
    format_table_row headers, format_table_separator headers.length,
    format_table_row (headers.map (dictGet rowData)), ""]
  let res : UpdateResult :=
    { success := true, target_file := env.target_file,
      action := "append_table_row", message := "Created new file with table" }
  if env.dry_run then .ok (res, fs)
  else
    match write_text env (pyJoinLines lines) fs with
    | .ok fs' => .ok (res, fs')
    | .error e => .error e

/-- `DocumentUpdater._append_table_section`. -/
def append_table_section (env : UpdEnv) (lines : List String) (sec : String)
    (rowData : PyDict) (tableHeaders : Option (List String)) (fs : FsState) :
    Except PyErr (UpdateResult × FsState) :=
  let headers := headersOrKeys tableHeaders (dictKeys rowData)
  write_file env fs
    (lines ++ ["", "## " ++ sec, "", format_table_row headers,
      format_table_separator headers.length,
      format_table_row (headers.map (dictGet rowData))])
    "append_table_row"

/-- `DocumentUpdater._insert_table_after_section`. -/
def insert_table_after_section (env : UpdEnv) (lines : List String)
    (sectionIndex : Nat) (rowData : PyDict)
    (tableHeaders : Option (List String)) (fs : FsState) :
    Except PyErr (UpdateResult × FsState) :=
  let headers := headersOrKeys tableHeaders (dictKeys rowData)
  write_file env fs
    (pySliceAssign lines (sectionIndex + 2) (sectionIndex + 2)
      ["", format_table_row headers, format_table_separator headers.length,
        format_table_row (headers.map (dictGet rowData))])
    "append_table_row"

/-- `DocumentUpdater.append_table_row`. -/
def append_table_row (env : UpdEnv) (sec : String) (rowData : PyDict)
    (tableHeaders : Option (List String)) (fs : FsState) :
    Except PyErr (UpdateResult × FsState) :=
  match fs.target with
  | none => create_table_file env sec rowData tableHeaders fs
  | some content =>
    let lines := pySplitLines content
    match find_section_index lines sec with
    | none => append_table_section env lines sec rowData tableHeaders fs
    | some sectionIndex =>
      match find_table_after_section lines sectionIndex with
      | none =>
        insert_table_after_section env lines sectionIndex rowData
          tableHeaders fs
      | some tableStart =>
        let tableEnd := find_table_end lines tableStart
        let headers := parse_table_row (lines.getD tableStart "")
        let rowCells := headers.map (dictGet rowData)
        let rowLine := format_table_row rowCells
        let insertIndex :=
          if tableStart + 1 < lines.length &&
              pyStartsWith (lines.getD (tableStart + 1) "") "|" then
            tableStart + 2
          else tableStart + 1
        if row_exists lines tableStart tableEnd rowData then
          .ok ({ success := true, target_file := env.target_file,
                 action := "append_table_row",
                 message := "Row already exists in table" }, fs)
        else
          write_file env fs (pyInsertAt lines insertIndex rowLine)
            "append_table_row"

/-- `DocumentUpdater.append_record`. -/
def append_record (env : UpdEnv) (content : String)
    (separator : String := "\n\n---\n\n") (fs : FsState) :
    Except PyErr (UpdateResult × FsState) :=
  match fs.target with
  | none =>
    let res : UpdateResult :=
      { success := true, target_file := env.target_file,
        action := "append_record", message := "Created new file with content" }
    if env.dry_run then .ok (res, fs)
    else
      match write_text env (content ++ "\n") fs with
      | .ok fs' => .ok (res, fs')
      | .error e => .error e
  | some existing =>
    let newContent := pyRstrip existing ++ separator ++ content
    let res : UpdateResult :=
      { success := true, target_file := env.target_file,
        action := "append_record",
        message := "Appended " ++ toString content.length ++ " characters" }
    if env.dry_run then .ok (res, fs)
    else
      let fs₁ := (backup_file env fs).2
      match write_text env newContent fs₁ with
      | .ok fs₂ => .ok (res, fs₂)
      | .error e => .error e

/-- `DocumentUpdater.update_section`. -/
def update_section (env : UpdEnv) (sec newContent : String)
    (replaceSubsection : Option String := none) (fs : FsState) :
    Except PyErr (UpdateResult × FsState) :=
  match fs.target with
  | none =>
    let content := "## " ++ sec ++ "\n\n" ++ newContent ++ "\n"
    let res : UpdateResult :=
      { success := true, target_file := env.target_file,
        action := "update_section", message := "Created new file with section" }
    if env.dry_run then .ok (res, fs)
    else
      match write_text env content fs with
      | .ok fs' => .ok (res, fs')
      | .error e => .error e
  | some content =>
    let lines := pySplitLines content
    let lines' :=
      match find_section_index lines sec with
      | none => lines ++ ["", "## " ++ sec, ""] ++ pySplitLines newContent
      | some sectionIndex =>
        match replaceSubsection with
        | some sub =>
          (match find_section_index lines sub (sectionIndex + 1) with
           | some subIdx =>
             (match find_next_section_index lines (subIdx + 1) with
              | some nextSection =>
                pySliceAssign lines (subIdx + 1) nextSection
                  (pySplitLines newContent)
              | none =>
                pySliceAssign lines (subIdx + 1) lines.length
                  (pySplitLines newContent))
           | none =>
             let insertIndex :=
               (find_next_section_index lines (sectionIndex + 1)).getD
                 lines.length
             let l₁ := pyInsertAt lines insertIndex ""
             let l₂ := pyInsertAt l₁ (insertIndex + 1) ("### " ++ sub)
             let l₃ := pyInsertAt l₂ (insertIndex + 2) ""
             (pySplitLines newContent).reverse.foldl
               (fun acc cl => pyInsertAt acc (insertIndex + 3) cl) l₃)
        | none =>
          match find_next_section_index lines (sectionIndex + 1) with
          | some nextSection =>
            pySliceAssign lines (sectionIndex + 2) nextSection
              (pySplitLines newContent)
          | none =>
            pySliceAssign lines (sectionIndex + 2) lines.length
              (pySplitLines newContent)
    write_file env fs lines' "update_section"

/-- `DocumentUpdater.prepend_content`. -/
def prepend_content (env : UpdEnv) (content : String)
    (afterHeader : Bool := true) (fs : FsState) :
    Except PyErr (UpdateResult × FsState) :=
  match fs.target with
  | none =>
    let res : UpdateResult :=
      { success := true, target_file := env.target_file,
        action := "prepend_content", message := "Created new file" }
    if env.dry_run then .ok (res, fs)
    else
      match write_text env (content ++ "\n") fs with
      | .ok fs' => .ok (res, fs')
      | .error e => .error e
  | some existing =>
    let newContent :=
      if afterHeader then
        let lines := pySplitLines existing
        let firstContent :=
          (findFrom (fun l => pyStrip l ≠ "" && !(pyStartsWith l "#"))
            lines 0).getD 0
        pyJoinLines (pySliceAssign lines firstContent firstContent
          ["", content])
      else content ++ "\n" ++ existing
    let res : UpdateResult :=
      { success := true, target_file := env.target_file,
        action := "prepend_content",
        message := "Prepended " ++ toString content.length ++ " characters" }
    if env.dry_run then .ok (res, fs)
    else
      let fs₁ := (backup_file env fs).2
      match write_text env newContent fs₁ with
      | .ok fs₂ => .ok (res, fs₂)
      | .error e => .error e

/-- One invocation of any of the four document mutation methods. -/
inductive MutOp : Type
  | tableRow (sec : String) (rowData : PyDict)
      (tableHeaders : Option (List String))
  | record (content separator : String)
  | sectionOp (sec newContent : String) (replaceSubsection : Option String)
  | prepend (content : String) (afterHeader : Bool)

/-- Dispatch a mutation invocation. -/
def runMut (env : UpdEnv) (op : MutOp) (fs : FsState) :
    Except PyErr (UpdateResult × FsState) :=
  match op with
  | .tableRow sec rowData tableHeaders =>
    append_table_row env sec rowData tableHeaders fs
  | .record content separator => append_record env content separator fs
  | .sectionOp sec newContent replaceSubsection =>
    update_section env sec newContent replaceSubsection fs
  | .prepend content afterHeader => prepend_content env content afterHeader fs

/-! ## Analyzer framework (`src/analyzers/`)

`read_text` and `ast.parse` are Python-stdlib externals, so the read outcome
and the parse outcome are inputs of the embedding.  Likewise the first line
read by `BashAnalyzer.can_analyze`'s shebang probe is an input
(`none` models an `IOError`/`UnicodeDecodeError`). -/

/-- Components of a path (pathlib `parts` for the relative paths the
analyzers receive). -/
def pathParts (p : String) : List String :=
  (pySplitCh '/' p).filter (· ≠ "")

/-- pathlib `Path(p).name`. -/
def pathName (p : String) : String :=
  (pathParts p).getLastD ""

/-- Index of the last `'.'` in a name, if any. -/
def lastDotIdx (cs : List Char) : Option Nat :=
  (cs.enum.filterMap (fun ic => if ic.2 = '.' then some ic.1 else none)).getLast?

/-- pathlib `Path(p).suffix`: the extension from the last dot of the name,
empty when the last dot is leading, trailing or absent. -/
def pathSuffix (p : String) : String :=
  let name := (pathName p).data
  match lastDotIdx name with
  | some i => if 0 < i && i + 1 < name.length then ⟨name.drop i⟩ else ""
  | none => ""

/-- pathlib `Path(p).stem`. -/
def pathStem (p : String) : String :=
  let name := (pathName p).data
  ⟨name.take (name.length - (pathSuffix p).length)⟩

/-- pathlib `Path(p).parent.name`. -/
def pathParentName (p : String) : String :=
  ((pathParts p).dropLast).getLastD ""

/-- `PythonAnalyzer.can_analyze`. -/
def python_can_analyze (file_path : String) : Bool :=
  [".py"].contains (pyLower (pathSuffix file_path))

/-- `JavaScriptAnalyzer.can_analyze`. -/
def javascript_can_analyze (file_path : String) : Bool :=
  [".js", ".jsx", ".ts", ".tsx", ".mjs", ".cjs"].contains
    (pyLower (pathSuffix file_path))

/-- `BashAnalyzer.can_analyze`; `firstLine` is what `path.open().readline()`
returns (`none` = the read raised, silently swallowed by the code). -/
def bash_can_analyze (firstLine : Option String) (file_path : String) :
    Bool :=
  if [".sh", ".bash", ".zsh"].contains (pyLower (pathSuffix file_path)) then
    true
  else
    match firstLine with
    | some fl =>
      pyStartsWith fl "#!" &&
        (pyIn "bash" fl || pyIn "sh" fl || pyIn "zsh" fl)
    | none => false

inductive AnalyzerKind : Type
  | python | javascript | bash
  deriving DecidableEq, Repr

/-- The `TypeError` CPython raises when instantiating an abstract class. -/
inductive TypeErr : Type
  | cantInstantiateAbstractBaseAnalyzer
  deriving DecidableEq, Repr

/-- `get_analyzer` from `src/analyzers/__init__.py`.  The fallback branch
executes `return BaseAnalyzer()`, and `BaseAnalyzer` is an ABC with abstract
methods `language`, `can_analyze`, `analyze`, so that call raises
`TypeError` instead of producing an analyzer. -/
def get_analyzer (firstLine : Option String) (file_path : String) :
    Except TypeErr AnalyzerKind :=
  if python_can_analyze file_path then .ok .python
  else if javascript_can_analyze file_path then .ok .javascript
  else if bash_can_analyze firstLine file_path then .ok .bash
  else .error .cantInstantiateAbstractBaseAnalyzer

/-- `ComplexityMetrics` dataclass (all fields are non-negative ints). -/
structure ComplexityMetrics where
  line_count : Nat
  code_lines : Nat := 0
  nesting_depth : Nat := 0
  complexity_score : Nat := 0
  function_count : Nat := 0
  class_count : Nat := 0
  param_count : Nat := 0
  deriving DecidableEq, Repr

/-- `ComplexityMetrics.is_high_complexity`. -/
def ComplexityMetrics.is_high_complexity (m : ComplexityMetrics) : Bool :=
  m.line_count > 100 || m.nesting_depth > 4 || m.complexity_score > 10

/-- Keyword list of `BaseAnalyzer._calculate_cyclomatic`. -/
def cyclomaticKeywords : List String :=
  ["if", "else", "elif", "for", "while", "case", "switch",
   "catch", "try", "except", "finally", "and", "or"]

/-- One line's test in `_calculate_cyclomatic`: the line counts (once, via
`break`) when some keyword + space is at the start of, or anywhere inside,
the stripped line. -/
def lineQualifies (line : String) : Bool :=
  let stripped := pyStrip line
  cyclomaticKeywords.any (fun kw =>
    pyStartsWith stripped (kw ++ " ") || pyIn (kw ++ " ") stripped)

/-- `BaseAnalyzer._calculate_cyclomatic`. -/
def calculate_cyclomatic (source : String) : Nat :=
  (pySplitLines source).foldl
    (fun c line => if lineQualifies line then c + 1 else c) 1

/-- The per-line state of the `calculate_complexity` loop:
`(code_lines, nesting_depth, max_nesting)`. -/
def complexityLineStep (st : Nat × Nat × Nat) (line : String) :
    Nat × Nat × Nat :=
  let (codeLines, depth, maxN) := st
  let stripped := pyStrip line
  let codeLines' :=
    if stripped ≠ "" && !(pyStartsWith stripped "#") then codeLines + 1
    else codeLines
  -- `if "{" in line or ":" in line and not stripped.startswith("#")`
  let (depth', maxN') :=
    if pyIn "\x7b" line || (pyIn ":" line && !(pyStartsWith stripped "#")) then
      (depth + 1, max maxN (depth + 1))
    else (depth, maxN)
  let depth'' := if pyIn "\x7d" line then depth' - 1 else depth'
  (codeLines', depth'', maxN')

/-- `BaseAnalyzer.calculate_complexity` — the generic line-based heuristic. -/
def calculate_complexity (source : String) : ComplexityMetrics :=
  let lines := pySplitLines source
  let (codeLines, _, maxN) := lines.foldl complexityLineStep (0, 0, 0)
  { line_count := lines.length
    code_lines := codeLines
    nesting_depth := maxN
    complexity_score := calculate_cyclomatic source }

/-- Payload of a `FunctionDef` / `AsyncFunctionDef` AST node: `arg.arg`
parameter names and the already-rendered decorator names
(`d.id if isinstance(d, ast.Name) else str(d)`). -/
structure FnNode where
  name : String
  lineno : Nat
  end_lineno : Option Nat
  args : List String
  decorators : List String
  deriving DecidableEq, Repr

/-- The Python AST node classes `PythonAnalyzer` distinguishes; every other
node class is `otherK`.  For `classDefK` the `bases` are the rendered base
names the extraction loop produces (`base.id` for `ast.Name`, the source
segment for `ast.Attribute`). -/
inductive NodeKind : Type
  | moduleK | ifK | whileK | forK | exceptHandlerK | boolOpK | compareK
  | withK | tryK
  | functionDefK (fn : FnNode)
  | asyncFunctionDefK (fn : FnNode)
  | classDefK (name : String) (lineno : Nat) (end_lineno : Option Nat)
      (bases : List String)
  | importNodeK (names : List String)
  | importFromK (mod : Option String) (names : List String)
  | otherK
  deriving DecidableEq, Repr

/-- A Python AST value; `children` is `ast.iter_child_nodes` order (for a
`ClassDef` the children are its `body`). -/
inductive PyAst : Type
  | node (kind : NodeKind) (children : List PyAst)

def PyAst.kind : PyAst → NodeKind
  | .node k _ => k

def PyAst.children : PyAst → List PyAst
  | .node _ cs => cs

mutual
/-- Number of nodes of a tree (fuel bound for the breadth-first walk). -/
def sizeAst : PyAst → Nat
  | .node _ cs => 1 + sizeAstList cs

def sizeAstList : List PyAst → Nat
  | [] => 0
  | c :: cs => sizeAst c + sizeAstList cs
end

/-- Breadth-first traversal queue of `ast.walk` (a deque popped at the left,
extended with each node's children). -/
def walkBFS : List PyAst → Nat → List PyAst
  | _, 0 => []
  | [], _ + 1 => []
  | t :: q, fuel + 1 => t :: walkBFS (q ++ t.children) fuel

/-- `ast.walk(tree)`: every node of the tree, breadth-first. -/
def walk (t : PyAst) : List PyAst :=
  walkBFS [t] (sizeAst t)

/-- The node classes adding 1 in `_calculate_complexity_ast`
(`If, While, For, ExceptHandler` and `BoolOp, Compare`). -/
def astQualNode (k : NodeKind) : Bool :=
  match k with
  | .ifK | .whileK | .forK | .exceptHandlerK | .boolOpK | .compareK => true
  | _ => false

/-- The cyclomatic part of `PythonAnalyzer._calculate_complexity_ast`. -/
def complexity_score_ast (t : PyAst) : Nat :=
  (walk t).foldl (fun c n => if astQualNode n.kind then c + 1 else c) 1

def isFunctionDef (k : NodeKind) : Bool :=
  match k with | .functionDefK _ => true | _ => false

def isClassDef (k : NodeKind) : Bool :=
  match k with | .classDefK _ _ _ _ => true | _ => false

/-- The node classes that increase depth in
`PythonAnalyzer._calculate_nesting_depth` (`If, While, For, With, Try`). -/
def nestKind (k : NodeKind) : Bool :=
  match k with
  | .ifK | .whileK | .forK | .withK | .tryK => true
  | _ => false

mutual
/-- `count_nesting(node, depth)`: the maximum depth reached at or below a
node visited at depth `d`. -/
def nestDepth : PyAst → Nat → Nat
  | .node _ cs, d => max d (nestDepthList cs d)

def nestDepthList : List PyAst → Nat → Nat
  | [], d => d
  | c :: cs, d =>
    max (nestDepth c (if nestKind c.kind then d + 1 else d))
      (nestDepthList cs d)
end

/-- `PythonAnalyzer._calculate_nesting_depth`. -/
def calculate_nesting_depth (t : PyAst) : Nat :=
  nestDepth t 0

/-- `PythonAnalyzer._calculate_complexity_ast`. -/
def calculate_complexity_ast (t : PyAst) (source : String) :
    ComplexityMetrics :=
  let lines := pySplitLines source
  let codeLines := (lines.filter
    (fun l => pyStrip l ≠ "" && !(pyStartsWith (pyStrip l) "#"))).length
  { line_count := lines.length
    code_lines := codeLines
    nesting_depth := calculate_nesting_depth t
    complexity_score := complexity_score_ast t
    function_count := ((walk t).filter (fun n => isFunctionDef n.kind)).length
    class_count := ((walk t).filter (fun n => isClassDef n.kind)).length
    param_count := ((walk t).filterMap (fun n =>
      match n.kind with
      | .functionDefK fn => some fn.args.length
      | _ => none)).foldl max 0 }

/-- `FunctionInfo` dataclass. -/
structure FunctionInfo where
  name : String
  line_start : Nat
  line_end : Nat
  parameters : List String
  decorators : List String
  is_method : Bool := false
  is_async : Bool := false
  deriving DecidableEq, Repr

/-- `ClassInfo` dataclass. -/
structure ClassInfo where
  name : String
  line_start : Nat
  line_end : Nat
  bases : List String
  methods : List FunctionInfo
  deriving DecidableEq, Repr

/-- `PythonAnalyzer._extract_functions` (matches `ast.FunctionDef` only;
`AsyncFunctionDef` is a distinct class, so `is_async` is always false
here, exactly as in the source). -/
def extract_functions (t : PyAst) : List FunctionInfo :=
  (walk t).filterMap (fun n =>
    match n.kind with
    | .functionDefK fn =>
      some { name := fn.name, line_start := fn.lineno,
             line_end := fn.end_lineno.getD fn.lineno,
             parameters := fn.args, decorators := fn.decorators,
             is_method := false, is_async := false }
    | _ => none)

/-- `PythonAnalyzer._extract_classes` (methods from the class body). -/
def extract_classes (t : PyAst) : List ClassInfo :=
  (walk t).filterMap (fun n =>
    match n.kind with
    | .classDefK name lineno endLineno bases =>
      some { name := name, line_start := lineno,
             line_end := endLineno.getD lineno, bases := bases,
             methods := n.children.filterMap (fun c =>
               match c.kind with
               | .functionDefK fn =>
                 some { name := fn.name, line_start := fn.lineno,
                        line_end := fn.end_lineno.getD fn.lineno,
                        parameters := fn.args, decorators := fn.decorators,
                        is_method := true, is_async := false }
               | .asyncFunctionDefK fn =>
                 some { name := fn.name, line_start := fn.lineno,
                        line_end := fn.end_lineno.getD fn.lineno,
                        parameters := fn.args, decorators := fn.decorators,
                        is_method := true, is_async := true }
               | _ => none) }
    | _ => none)

/-- `PythonAnalyzer._extract_imports_ast`. -/
def extract_imports_ast (t : PyAst) : List String :=
  (walk t).flatMap (fun n =>
    match n.kind with
    | .importNodeK names => names.map (fun a => "import " ++ a)
    | .importFromK m names =>
      ["from " ++ m.getD "" ++ " import " ++ joinStr ", " names]
    | _ => [])

/-- `list(set(...))` dedup (CPython set order is unspecified; first
occurrence order is used here and no claim depends on the order). -/
def dedupFirstAux (seen : List String) : List String → List String
  | [] => []
  | x :: xs =>
    if seen.contains x then dedupFirstAux seen xs
    else x :: dedupFirstAux (x :: seen) xs

def dedupFirst (l : List String) : List String :=
  dedupFirstAux [] l

/-- `BaseAnalyzer.detect_layers`. -/
def detect_layers (commit_message : String) : List String :=
  let cm := pyLower commit_message
  let memoTrouble := if ["fix", "bug", "error"].any (fun kw => pyIn kw cm)
    then ["memo"] else []
  let memoAdr :=
    if ["decision", "选型", "architecture"].any (fun kw => pyIn kw cm)
    then ["memo"] else []
  dedupFirst (memoTrouble ++ memoAdr ++ ["traditional"])

/-- `BaseAnalyzer.detect_file_type`. -/
def detect_file_type (file_path : String) : String :=
  let parent := pyLower (pathParentName file_path)
  if pyIn "service" parent then "service"
  else if pyIn "model" parent then "model"
  else if pyIn "util" parent then "utility"
  else if pyIn "test" parent then "test"
  else if pyStartsWith (pathName file_path) "test_" then "test"
  else "unknown"

/-- The action dicts `PythonAnalyzer._determine_actions` can emit. -/
inductive PyAction : Type
  | tableRowAction (target sec name file : String)
  | complexityNote (target file : String) (complexity : ComplexityMetrics)
  deriving DecidableEq, Repr

/-- `PythonAnalyzer._determine_actions`. -/
def determine_actions (file_path : String) (commit_message : String)
    (complexity : ComplexityMetrics) : List PyAction :=
  let cm := pyLower commit_message
  let serviceActs :=
    if (pathParts file_path).contains "service" ||
        (pathParts file_path).contains "services" then
      if ["feat", "add", "new"].any (fun kw => pyIn kw cm) then
        [.tableRowAction "README.md" "Services" (pathStem file_path)
          file_path]
      else []
    else []
  serviceActs ++
    (if complexity.is_high_complexity then
      [.complexityNote "docs/architecture.md" file_path complexity]
    else [])

/-- `AnalysisResult` dataclass (the `metadata` dict is modelled by its three
keys; `none` on every key = the empty dict of `__post_init__`). -/
structure AnalysisResult where
  file_path : String
  language : String
  layers : List String
  actions : List PyAction
  complexity : Option ComplexityMetrics := none
  functions : List FunctionInfo := []
  classes : List ClassInfo := []
  imports : List String := []
  metadataFileType : Option String := none
  metadataHasClasses : Option Bool := none
  metadataHasTests : Option Bool := none
  deriving DecidableEq, Repr

/-- `PythonAnalyzer._empty_result`. -/
def python_empty_result (file_path : String) : AnalysisResult :=
  { file_path := file_path, language := "Python", layers := [], actions := [] }

/-- `PythonAnalyzer.analyze`.  `readResult` is the outcome of
`path.read_text()` (`none` = `IOError`/`UnicodeDecodeError`), `parseResult`
the outcome of `ast.parse(source)` (`none` = `SyntaxError`). -/
def python_analyze (file_path : String) (readResult : Option String)
    (parseResult : Option PyAst) (commit_message : String) :
    AnalysisResult :=
  match readResult with
  | none => python_empty_result file_path
  | some source =>
    match parseResult with
    | none =>
      { file_path := file_path, language := "Python",
        layers := ["traditional"], actions := [],
        complexity := some (calculate_complexity source) }
    | some tree =>
      let functions := extract_functions tree
      let classes := extract_classes tree
      let complexity := calculate_complexity_ast tree source
      { file_path := file_path, language := "Python",
        layers := detect_layers commit_message,
        actions := determine_actions file_path commit_message complexity,
        complexity := some complexity,
        functions := functions,
        classes := classes,
        imports := extract_imports_ast tree,
        metadataFileType := some (detect_file_type file_path),
        metadataHasClasses := some (classes.length > 0),
        metadataHasTests := some (functions.any (fun f =>
          pyIn "test" (pyLower f.name))) }

/-! ## Preconditions under which the mutation idempotence claims hold

The idempotence of `append_table_row`/`update_section` fails on the raw code
for degenerate inputs (see the counterexamples below); the following
executable predicates state the amended preconditions. -/

def noNlStr (s : String) : Bool := s.data.all (· ≠ '\n')

/-- `str(list(row_data.values())[0]) if row_data else ""` — the token
`_row_exists` scans for. -/
def firstRowValue (rd : PyDict) : String := (dictValues rd).headD ""

/-- The data row a first `append_table_row` call would write (`none` when the
call is already a no-op because `_row_exists` fires). -/
def insertedRow (sec : String) (rd : PyDict) (th : Option (List String))
    (fs : FsState) : Option String :=
  let freshRow := format_table_row
    ((headersOrKeys th (dictKeys rd)).map (dictGet rd))
  match fs.target with
  | none => some freshRow
  | some content =>
    let lines := pySplitLines content
    match find_section_index lines sec with
    | none => some freshRow
    | some si =>
      match find_table_after_section lines si with
      | none => some freshRow
      | some ts =>
        if row_exists lines ts (find_table_end lines ts) rd then none
        else some (format_table_row
          ((parse_table_row (lines.getD ts "")).map (dictGet rd)))

/-- Precondition of the amended `append_table_row` idempotence: a clean
single-line section name, newline-free headers and values, the duplicate
detection token occurring in the row actually written, and — when the
section exists without a table — the line right after the section header not
being a `##` header itself. -/
def appendRowSafe (sec : String) (rd : PyDict) (th : Option (List String))
    (fs : FsState) : Bool :=
  noNlStr sec &&
  (pyStrip ("## " ++ sec) == "## " ++ sec) &&
  (headersOrKeys th (dictKeys rd)).all noNlStr &&
  (dictValues rd).all noNlStr &&
  (match insertedRow sec rd th fs with
   | none => true
   | some row => pyIn (firstRowValue rd) row) &&
  (match fs.target with
   | none => true
   | some content =>
     let lines := pySplitLines content
     match find_section_index lines sec with
     | none => true
     | some si =>
       match find_table_after_section lines si with
       | none => !(isSectionLine (lines.getD (si + 1) ""))
       | some _ => true)

/-- Precondition of the amended `update_section` idempotence: the target file
exists, the section name is clean and single-line, no content line is (or
strips to) a `##` header or matches the section patterns, and — when the
section exists — its header is neither on the last line nor immediately
followed by another `##` header. -/
def updateSectionSafe (sec nc : String) (fs : FsState) : Bool :=
  noNlStr sec &&
  (pyStrip ("## " ++ sec) == "## " ++ sec) &&
  (pySplitLines nc).all (fun l =>
    !(pyStartsWith l "##") && !(matchesSection sec l)) &&
  (match fs.target with
   | none => false
   | some content =>
     let lines := pySplitLines content
     match find_section_index lines sec with
     | none => true
     | some si =>
       decide (si + 2 ≤ lines.length) &&
         !(pyStartsWith (lines.getD (si + 1) "") "##"))

/-! ## Helper lemmas -/

lemma getD_append_left (xs ys : List String) (i : Nat) (h : i < xs.length) :
    (xs ++ ys).getD i "" = xs.getD i "" := by
  simp [List.getD_eq_getElem?_getD, List.getElem?_append, h]

lemma getD_append_right (xs ys : List String) (i : Nat)
    (h : xs.length ≤ i) :
    (xs ++ ys).getD i "" = ys.getD (i - xs.length) "" := by
  simp only [List.getD_eq_getElem?_getD, List.getElem?_append]
  rw [if_neg (by omega)]

lemma getD_take (l : List String) (n i : Nat) (h : i < n) :
    (l.take n).getD i "" = l.getD i "" := by
  simp [List.getD_eq_getElem?_getD, List.getElem?_take, h]

lemma getD_drop (l : List String) (n i : Nat) :
    (l.drop n).getD i "" = l.getD (n + i) "" := by
  simp [List.getD_eq_getElem?_getD, List.getElem?_drop]

lemma idxFind_some_spec (p : String → Bool) (l : List String) (i : Nat)
    (h : idxFind p l = some i) :
    i < l.length ∧ p (l.getD i "") = true ∧
      ∀ j < i, p (l.getD j "") = false := by
  induction l generalizing i with
  | nil => simp [idxFind] at h
  | cons a l ih =>
    simp only [idxFind] at h
    rcases Bool.eq_false_or_eq_true (p a) with hpa | hpa
    · rw [hpa] at h
      simp at h
      obtain rfl : i = 0 := by omega
      exact ⟨by simp, by simpa using hpa, fun j hj => by omega⟩
    · rw [hpa] at h
      simp at h
      obtain ⟨n, hfind, hni⟩ := h
      obtain rfl : i = n + 1 := by omega
      obtain ⟨h1, h2, h3⟩ := ih n hfind
      refine ⟨by simp [Nat.succ_lt_succ h1], by simpa using h2, ?_⟩
      intro j hj
      cases j with
      | zero => simpa using hpa
      | succ m => simpa using h3 m (by omega)
lemma idxFind_some_of (p : String → Bool) (l : List String) (i : Nat)
    (hi : i < l.length) (hp : p (l.getD i "") = true)
    (hall : ∀ j < i, p (l.getD j "") = false) :
    idxFind p l = some i := by
  induction l generalizing i with
  | nil => simp at hi
  | cons a l ih =>
    simp only [idxFind]
    cases i with
    | zero => simp only [List.getD_cons_zero] at hp; simp [hp]
    | succ n =>
      have hpa : p a = false := by simpa using hall 0 (by omega)
      rw [hpa]
      simp only [Bool.false_eq_true, if_false]
      rw [ih n (by simpa using hi) (by simpa using hp)
        (fun j hj => by simpa using hall (j + 1) (by omega))]
      rfl
lemma idxFind_none_iff (p : String → Bool) (l : List String) :
    idxFind p l = none ↔ ∀ j < l.length, p (l.getD j "") = false := by
  induction l with
  | nil => simp [idxFind]
  | cons a l ih =>
    simp only [idxFind]
    rcases Bool.eq_false_or_eq_true (p a) with hpa | hpa
    · rw [hpa]
      simp only [if_true]
      constructor
      · intro h; simp at h
      · intro h; exact absurd (by simpa using h 0 (by simp)) (by simp [hpa])
    · rw [hpa]
      simp only [Bool.false_eq_true, if_false, Option.map_eq_none', ih]
      constructor
      · intro h j hj
        cases j with
        | zero => simpa using hpa
        | succ m => simpa using h m (by simpa using hj)
      · intro h j hj
        simpa using h (j + 1) (by simpa using hj)
lemma findFrom_some_spec (p : String → Bool) (l : List String) (s i : Nat)
    (h : findFrom p l s = some i) :
    s ≤ i ∧ i < l.length ∧ p (l.getD i "") = true ∧
      ∀ j, s ≤ j → j < i → p (l.getD j "") = false := by
  simp only [findFrom, Option.map_eq_some'] at h
  obtain ⟨n, hn, rfl⟩ := h
  obtain ⟨h1, h2, h3⟩ := idxFind_some_spec _ _ _ hn
  rw [List.length_drop] at h1
  rw [getD_drop] at h2
  refine ⟨by omega, by omega, by rwa [Nat.add_comm] at h2, ?_⟩
  intro j hj1 hj2
  have := h3 (j - s) (by omega)
  rw [getD_drop] at this
  have hsj : s + (j - s) = j := by omega
  rwa [hsj] at this

lemma findFrom_some_of (p : String → Bool) (l : List String) (s i : Nat)
    (hs : s ≤ i) (hi : i < l.length) (hp : p (l.getD i "") = true)
    (hall : ∀ j, s ≤ j → j < i → p (l.getD j "") = false) :
    findFrom p l s = some i := by
  have : idxFind p (l.drop s) = some (i - s) := by
    apply idxFind_some_of
    · rw [List.length_drop]; omega
    · rw [getD_drop]
      have : s + (i - s) = i := by omega
      rwa [this]
    · intro j hj
      rw [getD_drop]
      exact hall (s + j) (by omega) (by omega)
  simp only [findFrom, this, Option.map_some']
  congr 1
  omega

lemma findFrom_none_iff (p : String → Bool) (l : List String) (s : Nat) :
    findFrom p l s = none ↔
      ∀ j, s ≤ j → j < l.length → p (l.getD j "") = false := by
  simp only [findFrom, Option.map_eq_none', idxFind_none_iff,
    List.length_drop]
  constructor
  · intro h j hj1 hj2
    have := h (j - s) (by omega)
    rw [getD_drop] at this
    have hsj : s + (j - s) = j := by omega
    rwa [hsj] at this
  · intro h j hj
    rw [getD_drop]
    exact h (s + j) (by omega) (by omega)

lemma splitChAux_no_sep (sep : Char) (xs ys acc : List Char)
    (h : ∀ c ∈ xs, c ≠ sep) :
    splitChAux sep (xs ++ ys) acc = splitChAux sep ys (xs.reverse ++ acc) := by
  induction xs generalizing acc with
  | nil => simp
  | cons c xs ih =>
    have hc : c ≠ sep := h c (by simp)
    simp only [List.cons_append, splitChAux, hc, if_false, List.reverse_cons]
    rw [List.append_assoc]
    exact ih (c :: acc) (fun d hd => h d (by simp [hd]))

lemma pySplit_pyJoin (L : List String) (hne : L ≠ [])
    (hnl : ∀ l ∈ L, noNlStr l = true) :
    pySplitLines (pyJoinLines L) = L := by
  induction L with
  | nil => exact absurd rfl hne
  | cons l L ih =>
    have hl : ∀ c ∈ l.data, c ≠ '\n' := by
      have := hnl l (by simp)
      simpa [noNlStr, List.all_eq_true] using this
    cases L with
    | nil =>
      show (splitChAux '\n' (joinChAux '\n' [l.data]) []).map String.mk = [l]
      rw [joinChAux]
      have : splitChAux '\n' (l.data ++ []) [] =
          splitChAux '\n' [] (l.data.reverse ++ []) :=
        splitChAux_no_sep '\n' l.data [] [] hl
      simp only [List.append_nil] at this
      rw [this]
      simp [splitChAux]
    | cons m M =>
      show (splitChAux '\n'
        (joinChAux '\n' (l.data :: (m :: M).map String.data)) []).map
          String.mk = l :: m :: M
      have hjoin : joinChAux '\n' (l.data :: (m :: M).map String.data) =
          l.data ++ '\n' :: joinChAux '\n' ((m :: M).map String.data) := by
        simp [joinChAux]
      rw [hjoin, splitChAux_no_sep '\n' l.data _ [] hl]
      simp only [List.append_nil, splitChAux, if_pos rfl, List.reverse_reverse]
      have := ih (by simp) (fun x hx => hnl x (by simp [hx]))
      simp only [pySplitLines, pySplitCh, pyJoinLines, List.map_cons] at this ⊢
      simp [this]

lemma noNl_mem_pySplitLines (s : String) :
    ∀ l ∈ pySplitLines s, noNlStr l = true := by
  have key : ∀ (cs acc : List Char), (∀ c ∈ acc, c ≠ '\n') →
      ∀ piece ∈ splitChAux '\n' cs acc, ∀ c ∈ piece, c ≠ '\n' := by
    intro cs
    induction cs with
    | nil =>
      intro acc hacc piece hp
      simp only [splitChAux, List.mem_singleton] at hp
      subst hp
      intro c hc
      exact hacc c (by simpa using hc)
    | cons d cs ih =>
      intro acc hacc piece hp
      simp only [splitChAux] at hp
      by_cases hd : d = '\n'
      · rw [if_pos hd] at hp
        rcases List.mem_cons.mp hp with h1 | h2
        · subst h1
          intro c hc
          exact hacc c (by simpa using hc)
        · exact ih [] (by simp) piece h2
      · rw [if_neg hd] at hp
        exact ih (d :: acc) (by
          intro c hc
          rcases List.mem_cons.mp hc with h1 | h2
          · subst h1; exact hd
          · exact hacc c h2) piece hp
  intro l hl
  simp only [pySplitLines, pySplitCh, List.mem_map] at hl
  obtain ⟨piece, hpiece, rfl⟩ := hl
  have := key s.data [] (by simp) piece hpiece
  simpa [noNlStr, List.all_eq_true] using this

lemma noNlStr_append (a b : String) :
    noNlStr (a ++ b) = (noNlStr a && noNlStr b) := by
  simp [noNlStr, List.all_append]

lemma noNlStr_joinStr (sep : String) (cells : List String)
    (hsep : noNlStr sep = true) (h : ∀ c ∈ cells, noNlStr c = true) :
    noNlStr (joinStr sep cells) = true := by
  induction cells with
  | nil => simp [joinStr, noNlStr]
  | cons c cells ih =>
    cases cells with
    | nil => simpa [joinStr] using h c (by simp)
    | cons d ds =>
      simp only [joinStr, noNlStr_append]
      have h1 := h c (by simp)
      have h2 := ih (fun x hx => h x (by simp [List.mem_cons] at hx ⊢; tauto))
      simp [h1, hsep, h2]

lemma noNlStr_format_row (cells : List String)
    (h : ∀ c ∈ cells, noNlStr c = true) :
    noNlStr (format_table_row cells) = true := by
  simp only [format_table_row, noNlStr_append]
  have := noNlStr_joinStr " | " cells (by decide) h
  simp [this]
  decide

lemma noNlStr_format_sep (n : Nat) :
    noNlStr (format_table_separator n) = true := by
  simp only [format_table_separator, noNlStr_append]
  have := noNlStr_joinStr " | " (List.replicate n "---") (by decide)
    (by intro c hc; rw [List.eq_of_mem_replicate hc]; decide)
  simp [this]
  decide

lemma dropWhileWs_append_last (xs : List Char) (c : Char)
    (hc : pyWs c = false) :
    ∃ ys, dropWhileWs (xs ++ [c]) = ys ++ [c] := by
  induction xs with
  | nil => exact ⟨[], by simp [dropWhileWs, hc]⟩
  | cons x xs ih =>
    by_cases hx : pyWs x
    · simpa [dropWhileWs, hx] using ih
    · exact ⟨x :: xs, by simp [dropWhileWs, hx]⟩

lemma pyStrip_head (s : String) (c : Char) (rest : List Char)
    (h : s.data = c :: rest) (hc : pyWs c = false) :
    ∃ r, (pyStrip s).data = c :: r := by
  have hrev : s.data.reverse = rest.reverse ++ [c] := by rw [h]; simp
  obtain ⟨ys, hys⟩ := dropWhileWs_append_last rest.reverse c hc
  refine ⟨ys.reverse, ?_⟩
  show dropWhileWs ((dropWhileWs s.data.reverse).reverse) = c :: ys.reverse
  rw [hrev, hys]
  simp [dropWhileWs, hc]

lemma isTableLine_of_head_pipe (s : String) (rest : List Char)
    (h : s.data = '|' :: rest) : isTableLine s = true := by
  obtain ⟨r, hr⟩ := pyStrip_head s '|' rest h (by decide)
  simp [isTableLine, pyStartsWith, hr, isPrefixCh]

lemma format_table_row_head (cells : List String) :
    ∃ rest, (format_table_row cells).data = '|' :: rest := by
  refine ⟨(" " ++ joinStr " | " cells ++ " |").data, ?_⟩
  show ("| " ++ (joinStr " | " cells ++ " |")).data = _
  rw [String.data_append, String.data_append, String.data_append]
  rfl

lemma isTableLine_format_row (cells : List String) :
    isTableLine (format_table_row cells) = true := by
  obtain ⟨rest, h⟩ := format_table_row_head cells
  exact isTableLine_of_head_pipe _ rest h

lemma format_table_separator_head (n : Nat) :
    ∃ rest, (format_table_separator n).data = '|' :: rest := by
  refine ⟨(" " ++ joinStr " | " (List.replicate n "---") ++ " |").data, ?_⟩
  show ("| " ++ (joinStr " | " (List.replicate n "---") ++ " |")).data = _
  rw [String.data_append, String.data_append, String.data_append]
  rfl

lemma isTableLine_format_sep (n : Nat) :
    isTableLine (format_table_separator n) = true := by
  obtain ⟨rest, h⟩ := format_table_separator_head n
  exact isTableLine_of_head_pipe _ rest h

lemma matchesSection_iff (sec line : String) :
    matchesSection sec line = true ↔
      (pyLower (pyStrip line) = pyLower ("## " ++ sec) ∨
       pyLower (pyStrip line) = pyLower ("### " ++ sec) ∨
       pyLower (pyStrip line) = pyLower ("#### " ++ sec)) := by
  simp [matchesSection, Bool.or_eq_true, decide_eq_true_eq, or_assoc]

lemma data_hash2 (sec : String) :
    ("## " ++ sec).data = '#' :: '#' :: ' ' :: sec.data := by
  rw [String.data_append]; rfl

lemma data_hash3 (sec : String) :
    ("### " ++ sec).data = '#' :: '#' :: '#' :: ' ' :: sec.data := by
  rw [String.data_append]; rfl

lemma data_hash4 (sec : String) :
    ("#### " ++ sec).data = '#' :: '#' :: '#' :: '#' :: ' ' :: sec.data := by
  rw [String.data_append]; rfl

lemma lower_eq_data {a b : String} (h : pyLower a = pyLower b) :
    a.data.map Char.toLower = b.data.map Char.toLower :=
  congrArg String.data h

lemma matchesSection_eq_false_of_head (sec line : String) (c₀ : Char)
    (rest : List Char) (h : (pyStrip line).data = c₀ :: rest)
    (hne : c₀.toLower ≠ '#') :
    matchesSection sec line = false := by
  rw [← Bool.not_eq_true, matchesSection_iff]
  have hlow : Char.toLower '#' = '#' := by decide
  rintro (heq | heq | heq)
  · have hd := lower_eq_data heq
    rw [h, data_hash2] at hd
    simp only [List.map_cons] at hd
    injection hd with h0 _
    rw [hlow] at h0
    exact hne h0
  · have hd := lower_eq_data heq
    rw [h, data_hash3] at hd
    simp only [List.map_cons] at hd
    injection hd with h0 _
    rw [hlow] at h0
    exact hne h0
  · have hd := lower_eq_data heq
    rw [h, data_hash4] at hd
    simp only [List.map_cons] at hd
    injection hd with h0 _
    rw [hlow] at h0
    exact hne h0

lemma matchesSection_eq_false_of_two (sec line : String) (c₀ c₁ : Char)
    (rest : List Char) (h : (pyStrip line).data = c₀ :: c₁ :: rest)
    (hne : ¬(c₀.toLower = '#' ∧ c₁.toLower = '#')) :
    matchesSection sec line = false := by
  rw [← Bool.not_eq_true, matchesSection_iff]
  have hlow : Char.toLower '#' = '#' := by decide
  rintro (heq | heq | heq)
  · have hd := lower_eq_data heq
    rw [h, data_hash2] at hd
    simp only [List.map_cons] at hd
    injection hd with h0 hd'
    injection hd' with h1 _
    rw [hlow] at h0 h1
    exact hne ⟨h0, h1⟩
  · have hd := lower_eq_data heq
    rw [h, data_hash3] at hd
    simp only [List.map_cons] at hd
    injection hd with h0 hd'
    injection hd' with h1 _
    rw [hlow] at h0 h1
    exact hne ⟨h0, h1⟩
  · have hd := lower_eq_data heq
    rw [h, data_hash4] at hd
    simp only [List.map_cons] at hd
    injection hd with h0 hd'
    injection hd' with h1 _
    rw [hlow] at h0 h1
    exact hne ⟨h0, h1⟩

lemma matchesSection_empty (sec : String) : matchesSection sec "" = false := by
  rw [← Bool.not_eq_true, matchesSection_iff]
  have hstrip : (pyStrip "").data = ([] : List Char) := rfl
  rintro (heq | heq | heq)
  · have hd := lower_eq_data heq
    rw [hstrip, data_hash2] at hd
    simp at hd
  · have hd := lower_eq_data heq
    rw [hstrip, data_hash3] at hd
    simp at hd
  · have hd := lower_eq_data heq
    rw [hstrip, data_hash4] at hd
    simp at hd

lemma matchesSection_self (sec : String)
    (h : pyStrip ("## " ++ sec) = "## " ++ sec) :
    matchesSection sec ("## " ++ sec) = true := by
  rw [matchesSection_iff]
  exact Or.inl (by rw [h])

lemma matchesSection_format_row (sec : String) (cells : List String) :
    matchesSection sec (format_table_row cells) = false := by
  obtain ⟨rest, h⟩ := format_table_row_head cells
  obtain ⟨r, hr⟩ := pyStrip_head _ '|' rest h (by decide)
  exact matchesSection_eq_false_of_head sec _ '|' r hr (by decide)

lemma matchesSection_format_sep (sec : String) (n : Nat) :
    matchesSection sec (format_table_separator n) = false := by
  obtain ⟨rest, h⟩ := format_table_separator_head n
  obtain ⟨r, hr⟩ := pyStrip_head _ '|' rest h (by decide)
  exact matchesSection_eq_false_of_head sec _ '|' r hr (by decide)

lemma pyInsertAt_eq {α : Type _} (l : List α) (i : Nat) (x : α)
    (h : i ≤ l.length) :
    pyInsertAt l i x = l.take i ++ x :: l.drop i := by
  induction l generalizing i with
  | nil =>
    obtain rfl : i = 0 := by simpa using h
    rfl
  | cons a l ih =>
    cases i with
    | zero => rfl
    | succ n =>
      simp only [pyInsertAt, List.take_succ_cons, List.drop_succ_cons,
        List.cons_append, List.cons.injEq, true_and]
      exact ih n (by simpa using h)

lemma any_of_getD (p : String → Bool) (l : List String) (i : Nat)
    (hi : i < l.length) (hp : p (l.getD i "") = true) :
    l.any p = true := by
  induction l generalizing i with
  | nil => simp at hi
  | cons a l ih =>
    cases i with
    | zero =>
      simp only [List.getD_cons_zero] at hp
      simp [hp]
    | succ n =>
      simp only [List.getD_cons_succ] at hp
      simp [ih n (by simpa using hi) hp]

lemma row_exists_of (lines : List String) (ts te : Nat) (rd : PyDict)
    (i : Nat) (h1 : ts ≤ i) (h2 : i < te) (h3 : i < lines.length)
    (h4 : pyIn (firstRowValue rd) (lines.getD i "") = true) :
    row_exists lines ts te rd = true := by
  show ((lines.drop ts).take (min te lines.length - ts)).any _ = true
  apply any_of_getD _ _ (i - ts)
  · rw [List.length_take, List.length_drop]
    omega
  · rw [getD_take _ _ _ (by omega), getD_drop]
    have : ts + (i - ts) = i := by omega
    rw [this]
    exact h4

lemma write_file_ok (env : UpdEnv) (fs : FsState) (L : List String)
    (act : String) (hdry : env.dry_run = false) (hw : env.writable = true) :
    write_file env fs L act =
      .ok ({ success := true, target_file := env.target_file, action := act,
             message := "File updated successfully" },
           { target := some (pyJoinLines L),
             bak := if env.backup && fs.target.isSome then fs.target
               else fs.bak }) := by
  rw [write_file, hdry]
  simp only [Bool.false_eq_true, if_false]
  rcases hb : env.backup && fs.target.isSome with _ | _
  · simp [backup_file, hb, write_text, hw]
  · simp [backup_file, hb, write_text, hw]

lemma dictGet_eq_empty_or_mem (rd : PyDict) (k : String) :
    dictGet rd k = "" ∨ dictGet rd k ∈ dictValues rd := by
  rcases h : rd.find? (fun kv => kv.1 = k) with _ | kv
  · left
    rw [dictGet, h]
    rfl
  · right
    rw [dictGet, h]
    have hmem := List.mem_of_find?_eq_some h
    simp only [Option.map_some', Option.getD_some]
    exact List.mem_map.mpr ⟨kv, hmem, rfl⟩

lemma foldl_count {α : Type _} (p : α → Bool) (l : List α) (init : Nat) :
    l.foldl (fun c x => if p x then c + 1 else c) init =
      init + (l.filter p).length := by
  induction l generalizing init with
  | nil => simp
  | cons a l ih =>
    rcases ha : p a with _ | _
    · simp [List.foldl_cons, ha, ih]
    · simp only [List.foldl_cons, ha, if_true, List.filter_cons, ih]
      simp [List.length_cons]
      omega

lemma find_section_index_eq_some (lines : List String) (sec : String)
    (i : Nat) (hi : i < lines.length)
    (hp : matchesSection sec (lines.getD i "") = true)
    (hall : ∀ j < i, matchesSection sec (lines.getD j "") = false) :
    find_section_index lines sec = some i :=
  findFrom_some_of _ lines 0 i (by omega) hi hp
    (fun j _ hj => hall j hj)

lemma find_table_after_section_eq_some (lines : List String) (si ts : Nat)
    (h1 : si + 1 ≤ ts) (h2 : ts < lines.length)
    (h3 : isTableLine (lines.getD ts "") = true)
    (hgap : ∀ j, si + 1 ≤ j → j < ts →
      (isTableLine (lines.getD j "") || isSectionLine (lines.getD j "")) =
        false) :
    find_table_after_section lines si = some ts := by
  rw [find_table_after_section,
    findFrom_some_of _ lines (si + 1) ts h1 h2
      (by rw [Bool.or_eq_true]; exact Or.inl h3) hgap]
  show (if isTableLine (lines.getD ts "") = true then some ts else none) =
    some ts
  rw [h3]
  simp

lemma find_table_end_gt (lines : List String) (ts ii : Nat)
    (hii : ii < lines.length)
    (hrun : ∀ j, ts + 1 ≤ j → j ≤ ii → isTableLine (lines.getD j "") = true) :
    ii < find_table_end lines ts := by
  rw [find_table_end]
  rcases hfind : findFrom (fun l => !(isTableLine l)) lines (ts + 1)
    with _ | k
  · simpa using hii
  · obtain ⟨hk1, hk2, hk3, -⟩ := findFrom_some_spec _ _ _ _ hfind
    simp only [Option.getD_some]
    by_contra hcon
    push_neg at hcon
    have := hrun k hk1 (by omega)
    rw [this] at hk3
    simp at hk3

/-- The second of two identical `append_table_row` calls is a no-op: on a
file whose lines `L` contain the section header at `h`, a table starting at
`ts`, and a table line at `ii` containing the first `rowData` value,
`_row_exists` fires and the call returns success without touching the
state. -/
lemma append_row_second_call_noop
    (env : UpdEnv) (sec : String) (rd : PyDict) (th : Option (List String))
    (L : List String) (b : Option String) (h ts ii : Nat)
    (hnl : ∀ l ∈ L, noNlStr l = true) (hne : L ≠ [])
    (hmatch : matchesSection sec (L.getD h "") = true)
    (hfirst : ∀ j < h, matchesSection sec (L.getD j "") = false)
    (hts1 : h + 1 ≤ ts) (hts2 : ts < L.length)
    (hgap : ∀ j, h + 1 ≤ j → j < ts →
      (isTableLine (L.getD j "") || isSectionLine (L.getD j "")) = false)
    (htab : isTableLine (L.getD ts "") = true)
    (hii1 : ts ≤ ii) (hii2 : ii < L.length)
    (hval : pyIn (firstRowValue rd) (L.getD ii "") = true)
    (hrun : ∀ j, ts + 1 ≤ j → j ≤ ii → isTableLine (L.getD j "") = true) :
    append_table_row env sec rd th
        { target := some (pyJoinLines L), bak := b } =
      .ok ({ success := true, target_file := env.target_file,
             action := "append_table_row",
             message := "Row already exists in table" },
           { target := some (pyJoinLines L), bak := b }) := by
  have hsplit : pySplitLines (pyJoinLines L) = L := pySplit_pyJoin L hne hnl
  have hsec : find_section_index L sec = some h :=
    find_section_index_eq_some L sec h (by omega) hmatch hfirst
  have htabfind : find_table_after_section L h = some ts :=
    find_table_after_section_eq_some L h ts hts1 hts2 htab hgap
  have hrow : row_exists L ts (find_table_end L ts) rd = true :=
    row_exists_of L ts _ rd ii hii1
      (find_table_end_gt L ts ii hii2 hrun) hii2 hval
  rw [append_table_row]
  simp only [hsplit, hsec, htabfind, hrow, if_true]

lemma startsWith_pipe_head (s : String) (h : pyStartsWith s "|" = true) :
    ∃ rest, s.data = '|' :: rest := by
  rcases hd : s.data with _ | ⟨c, cs⟩
  · rw [pyStartsWith, hd] at h
    rw [show ("|" : String).data = ['|'] from rfl] at h
    simp [isPrefixCh] at h
  · rw [pyStartsWith, hd] at h
    rw [show ("|" : String).data = ['|'] from rfl] at h
    simp only [isPrefixCh, Bool.and_eq_true, decide_eq_true_eq] at h
    obtain ⟨hc, -⟩ := h
    subst hc
    exact ⟨cs, rfl⟩

lemma isTableLine_of_startsWith_pipe (s : String)
    (h : pyStartsWith s "|" = true) : isTableLine s = true := by
  obtain ⟨rest, hd⟩ := startsWith_pipe_head s h
  exact isTableLine_of_head_pipe s rest hd

lemma matchesSection_hashdoc (sec : String) :
    matchesSection sec "# Documentation" = false := by
  have hd : (pyStrip "# Documentation").data =
      '#' :: ' ' :: "Documentation".data := by decide
  exact matchesSection_eq_false_of_two sec _ '#' ' ' _ hd (by decide)

lemma find_table_after_none_combined (lines : List String) (si : Nat)
    (hnone : find_table_after_section lines si = none)
    (hns : isSectionLine (lines.getD (si + 1) "") = false)
    (hlt : si + 1 < lines.length) :
    (isTableLine (lines.getD (si + 1) "") ||
      isSectionLine (lines.getD (si + 1) "")) = false := by
  rw [find_table_after_section] at hnone
  rcases hf : findFrom (fun l => isTableLine l || isSectionLine l) lines
      (si + 1) with _ | k
  · exact (findFrom_none_iff _ _ _).mp hf (si + 1) le_rfl hlt
  · rw [hf] at hnone
    have hnone' : (if isTableLine (lines.getD k "") = true then some k
        else none) = none := hnone
    obtain ⟨hk1, hk2, hk3, hk4⟩ := findFrom_some_spec _ _ _ _ hf
    rcases Nat.eq_or_lt_of_le hk1 with heq | hlt2
    · exfalso
      subst heq
      rcases ht : isTableLine (lines.getD (si + 1) "") with _ | _
      · rw [Bool.or_eq_true] at hk3
        rcases hk3 with h1 | h1
        · rw [ht] at h1; exact absurd h1 (by simp)
        · rw [hns] at h1; exact absurd h1 (by simp)
      · rw [ht, if_pos rfl] at hnone'
        exact absurd hnone' (by simp)
    · exact hk4 (si + 1) le_rfl hlt2

lemma noNl_header (sec : String) (h : noNlStr sec = true) :
    noNlStr ("## " ++ sec) = true := by
  rw [noNlStr_append]
  simp [h]
  decide

lemma noNl_dictGet (rd : PyDict) (hvals : ∀ v ∈ dictValues rd, noNlStr v = true)
    (k : String) : noNlStr (dictGet rd k) = true := by
  rcases dictGet_eq_empty_or_mem rd k with h | h
  · rw [h]; decide
  · exact hvals _ h

/-- First call on an absent target file: `_create_table_file` writes the
eight-line skeleton, and the second call is a `_row_exists` no-op. -/
lemma append_row_idem_create (env : UpdEnv) (sec : String) (rd : PyDict)
    (th : Option (List String)) (b : Option String)
    (hdry : env.dry_run = false) (hw : env.writable = true)
    (hsecnl : noNlStr sec = true)
    (hstrip : pyStrip ("## " ++ sec) = "## " ++ sec)
    (hheaders : ∀ x ∈ headersOrKeys th (dictKeys rd), noNlStr x = true)
    (hvals : ∀ v ∈ dictValues rd, noNlStr v = true)
    (htok : pyIn (firstRowValue rd)
      (format_table_row
        ((headersOrKeys th (dictKeys rd)).map (dictGet rd))) = true) :
    ∃ c₁,
      append_table_row env sec rd th { target := none, bak := b } =
        .ok ({ success := true, target_file := env.target_file,
               action := "append_table_row",
               message := "Created new file with table" },
             { target := some c₁, bak := b }) ∧
      append_table_row env sec rd th { target := some c₁, bak := b } =
        .ok ({ success := true, target_file := env.target_file,
               action := "append_table_row",
               message := "Row already exists in table" },
             { target := some c₁, bak := b }) := by
  set H := headersOrKeys th (dictKeys rd) with hH
  set L : List String := ["# Documentation", "", "## " ++ sec, "",
    format_table_row H, format_table_separator H.length,
    format_table_row (H.map (dictGet rd)), ""] with hL
  refine ⟨pyJoinLines L, ?_, ?_⟩
  · rw [append_table_row]
    show create_table_file env sec rd th { target := none, bak := b } = _
    rw [create_table_file, hdry, write_text, hw]
    simp
  · have hnl : ∀ l ∈ L, noNlStr l = true := by
      intro l hl
      rw [hL] at hl
      simp only [List.mem_cons, List.not_mem_nil, or_false] at hl
      rcases hl with rfl | rfl | rfl | rfl | rfl | rfl | rfl | rfl
      · decide
      · decide
      · exact noNl_header sec hsecnl
      · decide
      · exact noNlStr_format_row H hheaders
      · exact noNlStr_format_sep H.length
      · exact noNlStr_format_row _ (by
          intro c hc
          obtain ⟨k, -, rfl⟩ := List.mem_map.mp hc
          exact noNl_dictGet rd hvals k)
      · decide
    apply append_row_second_call_noop env sec rd th L b 2 4 6 hnl
      (by rw [hL]; simp)
    · show matchesSection sec (L.getD 2 "") = true
      rw [hL]
      simpa using matchesSection_self sec hstrip
    · intro j hj
      have hj2 : j = 0 ∨ j = 1 := by omega
      rcases hj2 with rfl | rfl
      · rw [hL]; simpa using matchesSection_hashdoc sec
      · rw [hL]; simpa using matchesSection_empty sec
    · omega
    · rw [hL]; simp
    · intro j hj1 hj2
      obtain rfl : j = 3 := by omega
      rw [hL]
      simp only [List.getD_cons_succ, List.getD_cons_zero]
      decide
    · rw [hL]; simpa using isTableLine_format_row H
    · omega
    · rw [hL]; simp
    · rw [hL]; simpa using htok
    · intro j hj1 hj2
      have hj3 : j = 5 ∨ j = 6 := by omega
      rcases hj3 with rfl | rfl
      · rw [hL]; simpa using isTableLine_format_sep H.length
      · rw [hL]; simpa using isTableLine_format_row (H.map (dictGet rd))

/-- First call on a file without the section: `_append_table_section` writes
section + table at the end, and the second call is a `_row_exists` no-op. -/
lemma append_row_idem_append_section (env : UpdEnv) (sec : String)
    (rd : PyDict) (th : Option (List String)) (content : String)
    (b : Option String)
    (hdry : env.dry_run = false) (hw : env.writable = true)
    (hsecnl : noNlStr sec = true)
    (hstrip : pyStrip ("## " ++ sec) = "## " ++ sec)
    (hheaders : ∀ x ∈ headersOrKeys th (dictKeys rd), noNlStr x = true)
    (hvals : ∀ v ∈ dictValues rd, noNlStr v = true)
    (hsec_none : find_section_index (pySplitLines content) sec = none)
    (htok : pyIn (firstRowValue rd)
      (format_table_row
        ((headersOrKeys th (dictKeys rd)).map (dictGet rd))) = true) :
    ∃ c₁ b₁,
      append_table_row env sec rd th { target := some content, bak := b } =
        .ok ({ success := true, target_file := env.target_file,
               action := "append_table_row",
               message := "File updated successfully" },
             { target := some c₁, bak := b₁ }) ∧
      append_table_row env sec rd th { target := some c₁, bak := b₁ } =
        .ok ({ success := true, target_file := env.target_file,
               action := "append_table_row",
               message := "Row already exists in table" },
             { target := some c₁, bak := b₁ }) := by
  have hn : ∀ l ∈ pySplitLines content, noNlStr l = true :=
    noNl_mem_pySplitLines content
  refine ⟨pyJoinLines (pySplitLines content ++ ["", "## " ++ sec, "",
      format_table_row (headersOrKeys th (dictKeys rd)),
      format_table_separator (headersOrKeys th (dictKeys rd)).length,
      format_table_row
        ((headersOrKeys th (dictKeys rd)).map (dictGet rd))]),
    if env.backup && (some content : Option String).isSome then some content
      else b, ?_, ?_⟩
  · simp only [append_table_row, hsec_none]
    rw [append_table_section, write_file_ok _ _ _ _ hdry hw]
  · have hlen : (pySplitLines content ++ ["", "## " ++ sec, "",
        format_table_row (headersOrKeys th (dictKeys rd)),
        format_table_separator (headersOrKeys th (dictKeys rd)).length,
        format_table_row
          ((headersOrKeys th (dictKeys rd)).map (dictGet rd))]).length =
        (pySplitLines content).length + 6 := by
      rw [List.length_append]
      rfl
    set n := (pySplitLines content).length with hnn
    apply append_row_second_call_noop env sec rd th _ _ (n + 1) (n + 3)
      (n + 5)
    · intro l hl
      rcases List.mem_append.mp hl with h1 | h1
      · exact hn l h1
      · simp only [List.mem_cons, List.not_mem_nil, or_false] at h1
        rcases h1 with rfl | rfl | rfl | rfl | rfl | rfl
        · decide
        · exact noNl_header sec hsecnl
        · decide
        · exact noNlStr_format_row _ hheaders
        · exact noNlStr_format_sep _
        · exact noNlStr_format_row _ (by
            intro c hc
            obtain ⟨k, -, rfl⟩ := List.mem_map.mp hc
            exact noNl_dictGet rd hvals k)
    · simp
    · rw [getD_append_right _ _ _ (by omega)]
      have : n + 1 - n = 1 := by omega
      rw [this]
      simpa using matchesSection_self sec hstrip
    · intro j hj
      rcases Nat.lt_or_ge j n with h1 | h1
      · rw [getD_append_left _ _ _ h1]
        exact (findFrom_none_iff _ _ _).mp hsec_none j (by omega) h1
      · obtain rfl : j = n := by omega
        rw [getD_append_right _ _ _ (by omega)]
        simpa using matchesSection_empty sec
    · omega
    · rw [hlen]; omega
    · intro j hj1 hj2
      obtain rfl : j = n + 2 := by omega
      rw [getD_append_right _ _ _ (by omega)]
      have : n + 2 - n = 2 := by omega
      rw [this]
      simp only [List.getD_cons_succ, List.getD_cons_zero]
      decide
    · rw [getD_append_right _ _ _ (by omega)]
      have : n + 3 - n = 3 := by omega
      rw [this]
      simpa using isTableLine_format_row _
    · omega
    · rw [hlen]; omega
    · rw [getD_append_right _ _ _ (by omega)]
      have : n + 5 - n = 5 := by omega
      rw [this]
      simpa using htok
    · intro j hj1 hj2
      have hj3 : j = n + 4 ∨ j = n + 5 := by omega
      rcases hj3 with rfl | rfl
      · rw [getD_append_right _ _ _ (by omega)]
        have : n + 4 - n = 4 := by omega
        rw [this]
        simpa using isTableLine_format_sep _
      · rw [getD_append_right _ _ _ (by omega)]
        have : n + 5 - n = 5 := by omega
        rw [this]
        simpa using isTableLine_format_row _

lemma pySliceAssign_insert {α : Type _} (l : List α) (a : Nat) (xs : List α) :
    pySliceAssign l a a xs =
      l.take (min a l.length) ++ xs ++ l.drop (min a l.length) := by
  simp [pySliceAssign]

/-- First call on a file whose section exists but has no table:
`_insert_table_after_section` writes the table two lines below the header,
and the second call is a `_row_exists` no-op. -/
lemma append_row_idem_insert_table (env : UpdEnv) (sec : String)
    (rd : PyDict) (th : Option (List String)) (content : String)
    (b : Option String) (si : Nat)
    (hdry : env.dry_run = false) (hw : env.writable = true)
    (hheaders : ∀ x ∈ headersOrKeys th (dictKeys rd), noNlStr x = true)
    (hvals : ∀ v ∈ dictValues rd, noNlStr v = true)
    (hsec : find_section_index (pySplitLines content) sec = some si)
    (htabnone : find_table_after_section (pySplitLines content) si = none)
    (hbB : isSectionLine ((pySplitLines content).getD (si + 1) "") = false)
    (htok : pyIn (firstRowValue rd)
      (format_table_row
        ((headersOrKeys th (dictKeys rd)).map (dictGet rd))) = true) :
    ∃ c₁ b₁,
      append_table_row env sec rd th { target := some content, bak := b } =
        .ok ({ success := true, target_file := env.target_file,
               action := "append_table_row",
               message := "File updated successfully" },
             { target := some c₁, bak := b₁ }) ∧
      append_table_row env sec rd th { target := some c₁, bak := b₁ } =
        .ok ({ success := true, target_file := env.target_file,
               action := "append_table_row",
               message := "Row already exists in table" },
             { target := some c₁, bak := b₁ }) := by
  obtain ⟨-, hsi_lt, hsi_match, hsi_first⟩ := findFrom_some_spec _ _ _ _ hsec
  have hn : ∀ l ∈ pySplitLines content, noNlStr l = true :=
    noNl_mem_pySplitLines content
  set lines := pySplitLines content with hlines
  set n := lines.length with hnn
  set a' := min (si + 2) n with ha'
  have ha'1 : si + 1 ≤ a' := by omega
  have ha'2 : a' ≤ n := by omega
  have ha'3 : a' ≤ si + 2 := by omega
  set block : List String := ["",
    format_table_row (headersOrKeys th (dictKeys rd)),
    format_table_separator (headersOrKeys th (dictKeys rd)).length,
    format_table_row ((headersOrKeys th (dictKeys rd)).map (dictGet rd))]
    with hblock
  have hL : pySliceAssign lines (si + 2) (si + 2) block =
      lines.take a' ++ block ++ lines.drop a' := pySliceAssign_insert _ _ _
  have hblen : block.length = 4 := rfl
  have htakelen : (lines.take a').length = a' := by
    rw [List.length_take]
    omega
  have hlen : (lines.take a' ++ block ++ lines.drop a').length = n + 4 := by
    rw [List.length_append, List.length_append, htakelen, hblen,
      List.length_drop]
    omega
  refine ⟨pyJoinLines (lines.take a' ++ block ++ lines.drop a'),
    if env.backup && (some content : Option String).isSome then some content
      else b, ?_, ?_⟩
  · simp only [append_table_row, hsec, htabnone]
    rw [insert_table_after_section, hL, write_file_ok _ _ _ _ hdry hw]
  · apply append_row_second_call_noop env sec rd th _ _ si (a' + 1) (a' + 3)
    · intro l hl
      rcases List.mem_append.mp hl with h1 | h1
      · rcases List.mem_append.mp h1 with h2 | h2
        · exact hn l (List.mem_of_mem_take h2)
        · rw [hblock] at h2
          simp only [List.mem_cons, List.not_mem_nil, or_false] at h2
          rcases h2 with rfl | rfl | rfl | rfl
          · decide
          · exact noNlStr_format_row _ hheaders
          · exact noNlStr_format_sep _
          · exact noNlStr_format_row _ (by
              intro c hc
              obtain ⟨k, -, rfl⟩ := List.mem_map.mp hc
              exact noNl_dictGet rd hvals k)
      · exact hn l (List.mem_of_mem_drop h1)
    · intro hemp
      have := congrArg List.length hemp
      rw [hlen] at this
      simp at this
    · rw [getD_append_left _ _ _ (by rw [List.length_append, htakelen, hblen]; omega)]
      rw [getD_append_left _ _ _ (by rw [htakelen]; omega)]
      rw [getD_take _ _ _ (by omega)]
      exact hsi_match
    · intro j hj
      rw [getD_append_left _ _ _ (by rw [List.length_append, htakelen, hblen]; omega)]
      rw [getD_append_left _ _ _ (by rw [htakelen]; omega)]
      rw [getD_take _ _ _ (by omega)]
      exact hsi_first j (by omega) hj
    · omega
    · rw [hlen]; omega
    · intro j hj1 hj2
      rcases Nat.lt_or_ge j a' with hja | hja
      · -- j = si + 1 and si + 1 < a' ≤ n, original line after the header
        obtain rfl : j = si + 1 := by omega
        rw [getD_append_left _ _ _ (by rw [List.length_append, htakelen, hblen]; omega)]
        rw [getD_append_left _ _ _ (by rw [htakelen]; omega)]
        rw [getD_take _ _ _ (by omega)]
        exact find_table_after_none_combined lines si htabnone hbB (by omega)
      · -- j = a', the blank line of the inserted block
        obtain rfl : j = a' := by omega
        rw [getD_append_left _ _ _ (by rw [List.length_append, htakelen, hblen]; omega)]
        rw [getD_append_right _ _ _ (by rw [htakelen])]
        rw [htakelen]
        simp only [Nat.sub_self, hblock, List.getD_cons_zero]
        decide
    · rw [getD_append_left _ _ _ (by rw [List.length_append, htakelen, hblen]; omega)]
      rw [getD_append_right _ _ _ (by rw [htakelen]; omega)]
      rw [htakelen]
      have : a' + 1 - a' = 1 := by omega
      rw [this, hblock]
      simpa using isTableLine_format_row _
    · omega
    · rw [hlen]; omega
    · rw [getD_append_left _ _ _ (by rw [List.length_append, htakelen, hblen]; omega)]
      rw [getD_append_right _ _ _ (by rw [htakelen]; omega)]
      rw [htakelen]
      have : a' + 3 - a' = 3 := by omega
      rw [this, hblock]
      simpa using htok
    · intro j hj1 hj2
      have hj3 : j = a' + 2 ∨ j = a' + 3 := by omega
      rcases hj3 with rfl | rfl
      · rw [getD_append_left _ _ _ (by rw [List.length_append, htakelen, hblen]; omega)]
        rw [getD_append_right _ _ _ (by rw [htakelen]; omega)]
        rw [htakelen]
        have : a' + 2 - a' = 2 := by omega
        rw [this, hblock]
        simpa using isTableLine_format_sep _
      · rw [getD_append_left _ _ _ (by rw [List.length_append, htakelen, hblen]; omega)]
        rw [getD_append_right _ _ _ (by rw [htakelen]; omega)]
        rw [htakelen]
        have : a' + 3 - a' = 3 := by omega
        rw [this, hblock]
        simpa using isTableLine_format_row _

lemma find_table_after_some_spec (lines : List String) (si ts : Nat)
    (h : find_table_after_section lines si = some ts) :
    si + 1 ≤ ts ∧ ts < lines.length ∧
      isTableLine (lines.getD ts "") = true ∧
      ∀ j, si + 1 ≤ j → j < ts →
        (isTableLine (lines.getD j "") || isSectionLine (lines.getD j "")) =
          false := by
  rw [find_table_after_section] at h
  rcases hf : findFrom (fun l => isTableLine l || isSectionLine l) lines
      (si + 1) with _ | k
  · rw [hf] at h
    exact absurd h (by simp)
  · rw [hf] at h
    have h' : (if isTableLine (lines.getD k "") = true then some k
        else none) = some ts := h
    obtain ⟨hk1, hk2, -, hk4⟩ := findFrom_some_spec _ _ _ _ hf
    rcases ht : isTableLine (lines.getD k "") with _ | _
    · rw [ht] at h'
      simp at h'
    · rw [ht, if_pos rfl] at h'
      obtain rfl : k = ts := by simpa using h'
      exact ⟨hk1, hk2, ht, hk4⟩

/-- First call on a file whose section has a table and whose table does not
yet contain the row token: the row is inserted, and the second call is a
`_row_exists` no-op. -/
lemma append_row_idem_insert_row (env : UpdEnv) (sec : String)
    (rd : PyDict) (th : Option (List String)) (content : String)
    (b : Option String) (si ts₀ : Nat)
    (hdry : env.dry_run = false) (hw : env.writable = true)
    (hvals : ∀ v ∈ dictValues rd, noNlStr v = true)
    (hsec : find_section_index (pySplitLines content) sec = some si)
    (htab : find_table_after_section (pySplitLines content) si = some ts₀)
    (hre : row_exists (pySplitLines content) ts₀
      (find_table_end (pySplitLines content) ts₀) rd = false)
    (htok : pyIn (firstRowValue rd)
      (format_table_row
        ((parse_table_row ((pySplitLines content).getD ts₀ "")).map
          (dictGet rd))) = true) :
    ∃ c₁ b₁,
      append_table_row env sec rd th { target := some content, bak := b } =
        .ok ({ success := true, target_file := env.target_file,
               action := "append_table_row",
               message := "File updated successfully" },
             { target := some c₁, bak := b₁ }) ∧
      append_table_row env sec rd th { target := some c₁, bak := b₁ } =
        .ok ({ success := true, target_file := env.target_file,
               action := "append_table_row",
               message := "Row already exists in table" },
             { target := some c₁, bak := b₁ }) := by
  obtain ⟨-, hsi_lt, hsi_match, hsi_first⟩ := findFrom_some_spec _ _ _ _ hsec
  obtain ⟨hts1, hts2, htsline, htgap⟩ := find_table_after_some_spec _ _ _ htab
  have hn : ∀ l ∈ pySplitLines content, noNlStr l = true :=
    noNl_mem_pySplitLines content
  set lines := pySplitLines content with hlines
  set n := lines.length with hnn
  set rowLine : String := format_table_row
    ((parse_table_row (lines.getD ts₀ "")).map (dictGet rd)) with hrow
  set ii₀ : Nat := if ts₀ + 1 < lines.length &&
      pyStartsWith (lines.getD (ts₀ + 1) "") "|" then ts₀ + 2
    else ts₀ + 1 with hii₀
  have hii_le : ts₀ + 1 ≤ ii₀ ∧ ii₀ ≤ n ∧ ii₀ ≤ ts₀ + 2 := by
    rw [hii₀]
    rcases hcond : (decide (ts₀ + 1 < lines.length) &&
        pyStartsWith (lines.getD (ts₀ + 1) "") "|") with _ | _
    · simp only [hcond, Bool.false_eq_true, if_false]
      omega
    · simp only [hcond, if_true]
      have := Bool.and_eq_true _ _ |>.mp hcond
      have h1 : ts₀ + 1 < lines.length := by
        have := this.1
        simpa using this
      omega
  obtain ⟨hiiA, hiiB, hiiC⟩ := hii_le
  have hins : pyInsertAt lines ii₀ rowLine =
      lines.take ii₀ ++ rowLine :: lines.drop ii₀ :=
    pyInsertAt_eq lines ii₀ rowLine hiiB
  have htakelen : (lines.take ii₀).length = ii₀ := by
    rw [List.length_take]
    omega
  have hlen : (lines.take ii₀ ++ rowLine :: lines.drop ii₀).length =
      n + 1 := by
    rw [List.length_append, htakelen, List.length_cons, List.length_drop]
    omega
  have hrow_nl : noNlStr rowLine = true := by
    rw [hrow]
    exact noNlStr_format_row _ (by
      intro c hc
      obtain ⟨k, -, rfl⟩ := List.mem_map.mp hc
      exact noNl_dictGet rd hvals k)
  refine ⟨pyJoinLines (lines.take ii₀ ++ rowLine :: lines.drop ii₀),
    if env.backup && (some content : Option String).isSome then some content
      else b, ?_, ?_⟩
  · simp only [append_table_row, hsec, htab, hre, Bool.false_eq_true,
      if_false]
    rw [← hrow, ← hii₀, hins, write_file_ok _ _ _ _ hdry hw]
  · apply append_row_second_call_noop env sec rd th _ _ si ts₀ ii₀
    · intro l hl
      rcases List.mem_append.mp hl with h1 | h1
      · exact hn l (List.mem_of_mem_take h1)
      · rcases List.mem_cons.mp h1 with rfl | h2
        · exact hrow_nl
        · exact hn l (List.mem_of_mem_drop h2)
    · intro hemp
      have := congrArg List.length hemp
      rw [hlen] at this
      simp at this
    · rw [getD_append_left _ _ _ (by rw [htakelen]; omega)]
      rw [getD_take _ _ _ (by omega)]
      exact hsi_match
    · intro j hj
      rw [getD_append_left _ _ _ (by rw [htakelen]; omega)]
      rw [getD_take _ _ _ (by omega)]
      exact hsi_first j (by omega) hj
    · omega
    · rw [hlen]; omega
    · intro j hj1 hj2
      rw [getD_append_left _ _ _ (by rw [htakelen]; omega)]
      rw [getD_take _ _ _ (by omega)]
      exact htgap j hj1 hj2
    · rw [getD_append_left _ _ _ (by rw [htakelen]; omega)]
      rw [getD_take _ _ _ (by omega)]
      exact htsline
    · omega
    · rw [hlen]; omega
    · rw [getD_append_right _ _ _ (by rw [htakelen])]
      rw [htakelen, Nat.sub_self, List.getD_cons_zero]
      exact htok
    · intro j hj1 hj2
      rcases Nat.lt_or_ge j ii₀ with hja | hja
      · -- only possible when ii₀ = ts₀ + 2 and j = ts₀ + 1
        obtain rfl : j = ts₀ + 1 := by omega
        have hcond : (decide (ts₀ + 1 < lines.length) &&
            pyStartsWith (lines.getD (ts₀ + 1) "") "|") = true := by
          rcases hc : (decide (ts₀ + 1 < lines.length) &&
              pyStartsWith (lines.getD (ts₀ + 1) "") "|") with _ | _
          · rw [hii₀] at hja
            simp only [hc, Bool.false_eq_true, if_false] at hja
            omega
          · rfl
        have hpipe : pyStartsWith (lines.getD (ts₀ + 1) "") "|" = true :=
          ((Bool.and_eq_true _ _).mp hcond).2
        rw [getD_append_left _ _ _ (by rw [htakelen]; omega)]
        rw [getD_take _ _ _ (by omega)]
        exact isTableLine_of_startsWith_pipe _ hpipe
      · obtain rfl : j = ii₀ := by omega
        rw [getD_append_right _ _ _ (by rw [htakelen])]
        rw [htakelen, Nat.sub_self, List.getD_cons_zero, hrow]
        exact isTableLine_format_row _

/-- C3 (amended): for every starting file state, section name and rowData
satisfying `appendRowSafe` — single-line clean section name, newline-free
headers and values, the duplicate-detection token (first rowData value)
occurring in the row the first call writes, and no `##` line directly under
a table-less section header — calling `append_table_row` twice with
identical `(section, rowData)` yields the same final file state as calling
it once, and the second call reports success. -/
theorem append_table_row_idempotent (env : UpdEnv) (sec : String)
    (rd : PyDict) (th : Option (List String)) (fs : FsState)
    (hdry : env.dry_run = false) (hw : env.writable = true)
    (hsafe : appendRowSafe sec rd th fs = true) :
    ∃ r₁ fs₁ r₂,
      append_table_row env sec rd th fs = .ok (r₁, fs₁) ∧
      append_table_row env sec rd th fs₁ = .ok (r₂, fs₁) ∧
      r₂.success = true := by
  obtain ⟨tgt, b⟩ := fs
  simp only [appendRowSafe, Bool.and_eq_true] at hsafe
  obtain ⟨⟨⟨⟨⟨hA, hB⟩, hC⟩, hD⟩, hE⟩, hF⟩ := hsafe
  have hB' : pyStrip ("## " ++ sec) = "## " ++ sec := by simpa using hB
  have hC' : ∀ x ∈ headersOrKeys th (dictKeys rd), noNlStr x = true := by
    simpa [List.all_eq_true] using hC
  have hD' : ∀ v ∈ dictValues rd, noNlStr v = true := by
    simpa [List.all_eq_true] using hD
  rcases htgt : tgt with _ | content
  · -- target file absent: `_create_table_file`
    subst htgt
    have hE' : pyIn (firstRowValue rd)
        (format_table_row
          ((headersOrKeys th (dictKeys rd)).map (dictGet rd))) = true := by
      simpa [insertedRow] using hE
    obtain ⟨c₁, h1, h2⟩ :=
      append_row_idem_create env sec rd th b hdry hw hA hB' hC' hD' hE'
    exact ⟨_, _, _, h1, h2, rfl⟩
  · subst htgt
    rcases hsec : find_section_index (pySplitLines content) sec with _ | si
    · -- section absent: `_append_table_section`
      have hE' : pyIn (firstRowValue rd)
          (format_table_row
            ((headersOrKeys th (dictKeys rd)).map (dictGet rd))) = true := by
        simpa [insertedRow, hsec] using hE
      obtain ⟨c₁, b₁, h1, h2⟩ :=
        append_row_idem_append_section env sec rd th content b hdry hw hA
          hB' hC' hD' hsec hE'
      exact ⟨_, _, _, h1, h2, rfl⟩
    · rcases htab : find_table_after_section (pySplitLines content) si
          with _ | ts₀
      · -- table absent under the section: `_insert_table_after_section`
        have hE' : pyIn (firstRowValue rd)
            (format_table_row
              ((headersOrKeys th (dictKeys rd)).map (dictGet rd))) =
            true := by
          simpa [insertedRow, hsec, htab] using hE
        have hF' : isSectionLine
            ((pySplitLines content).getD (si + 1) "") = false := by
          simpa [hsec, htab] using hF
        obtain ⟨c₁, b₁, h1, h2⟩ :=
          append_row_idem_insert_table env sec rd th content b si hdry hw
            hC' hD' hsec htab hF' hE'
        exact ⟨_, _, _, h1, h2, rfl⟩
      · rcases hre : row_exists (pySplitLines content) ts₀
            (find_table_end (pySplitLines content) ts₀) rd with _ | _
        · -- row not present: insert it
          have hE' : pyIn (firstRowValue rd)
              (format_table_row
                ((parse_table_row ((pySplitLines content).getD ts₀ "")).map
                  (dictGet rd))) = true := by
            simpa [insertedRow, hsec, htab, hre] using hE
          obtain ⟨c₁, b₁, h1, h2⟩ :=
            append_row_idem_insert_row env sec rd th content b si ts₀ hdry
              hw hD' hsec htab hre hE'
          exact ⟨_, _, _, h1, h2, rfl⟩
        · -- row already present: both calls are no-ops
          have hstep : append_table_row env sec rd th
              { target := some content, bak := b } =
              .ok ({ success := true, target_file := env.target_file,
                     action := "append_table_row",
                     message := "Row already exists in table" },
                   { target := some content, bak := b }) := by
            simp only [append_table_row, hsec, htab, hre, if_true]
          exact ⟨_, _, _, hstep, hstep, rfl⟩

lemma ok_pair_eq {E A B : Type} {x r : A} {y fs' : B}
    (h : (Except.ok (x, y) : Except E (A × B)) = .ok (r, fs')) :
    x = r ∧ y = fs' := by
  injection h with h2
  exact ⟨congrArg Prod.fst h2, congrArg Prod.snd h2⟩

lemma write_file_shape {env fs L act r fs'}
    (h : write_file env fs L act = .ok (r, fs')) :
    r.success = true ∧ r.backup_path = none := by
  rw [write_file] at h
  repeat'
    first
      | split at h
      | simp only [] at h
  all_goals
    first
      | (obtain ⟨rfl, -⟩ := ok_pair_eq h; exact ⟨rfl, rfl⟩)
      | simp at h

lemma create_table_file_shape {env sec rd th fs r fs'}
    (h : create_table_file env sec rd th fs = .ok (r, fs')) :
    r.success = true ∧ r.backup_path = none := by
  rw [create_table_file] at h
  repeat'
    first
      | split at h
      | simp only [] at h
  all_goals
    first
      | (obtain ⟨rfl, -⟩ := ok_pair_eq h; exact ⟨rfl, rfl⟩)
      | simp at h

lemma append_table_row_shape {env sec rd th fs r fs'}
    (h : append_table_row env sec rd th fs = .ok (r, fs')) :
    r.success = true ∧ r.backup_path = none := by
  rw [append_table_row] at h
  repeat'
    first
      | split at h
      | simp only [] at h
  all_goals
    first
      | (obtain ⟨rfl, -⟩ := ok_pair_eq h; exact ⟨rfl, rfl⟩)
      | exact create_table_file_shape h
      | exact write_file_shape h
      | simp at h

lemma append_record_shape {env content sep fs r fs'}
    (h : append_record env content sep fs = .ok (r, fs')) :
    r.success = true ∧ r.backup_path = none := by
  rw [append_record] at h
  repeat'
    first
      | split at h
      | simp only [] at h
  all_goals
    first
      | (obtain ⟨rfl, -⟩ := ok_pair_eq h; exact ⟨rfl, rfl⟩)
      | simp at h

lemma update_section_shape {env sec nc sub fs r fs'}
    (h : update_section env sec nc sub fs = .ok (r, fs')) :
    r.success = true ∧ r.backup_path = none := by
  rw [update_section] at h
  repeat'
    first
      | split at h
      | simp only [] at h
  all_goals
    first
      | (obtain ⟨rfl, -⟩ := ok_pair_eq h; exact ⟨rfl, rfl⟩)
      | exact write_file_shape h
      | simp at h

lemma prepend_content_shape {env content ah fs r fs'}
    (h : prepend_content env content ah fs = .ok (r, fs')) :
    r.success = true ∧ r.backup_path = none := by
  rw [prepend_content] at h
  repeat'
    first
      | split at h
      | simp only [] at h
  all_goals
    first
      | (obtain ⟨rfl, -⟩ := ok_pair_eq h; exact ⟨rfl, rfl⟩)
      | simp at h

lemma runMut_shape {env op fs r fs'}
    (h : runMut env op fs = .ok (r, fs')) :
    r.success = true ∧ r.backup_path = none := by
  cases op with
  | tableRow sec rd th => exact append_table_row_shape h
  | record content sep => exact append_record_shape h
  | sectionOp sec nc sub => exact update_section_shape h
  | prepend content ah => exact prepend_content_shape h

/-! ## Claim theorems -/

/-- C1 counterexample: a mutation invocation on an unwritable target does
not return `UpdateResult(success=false)` — the underlying exception
(`PermissionError` from `Path.write_text`, which no `DocumentUpdater`
method catches) escapes the call, so no `UpdateResult` is produced at
all. -/
theorem mutation_write_failure_escapes_cex :
    runMut { writable := false } (.record "x" "\n\n---\n\n")
        { target := some "old", bak := none } =
      .error .permissionError := rfl

/-- C1 (amended): no mutation invocation ever reports failure in-band:
every `UpdateResult` actually returned by `append_table_row`,
`append_record`, `update_section` or `prepend_content` has
`success = true`; a failure to write the target instead propagates to the
caller as the uncaught exception. -/
theorem mutation_results_always_success (env : UpdEnv) (op : MutOp)
    (fs : FsState) (r : UpdateResult) (fs' : FsState)
    (h : runMut env op fs = .ok (r, fs')) : r.success = true :=
  (runMut_shape h).1

/-- Witness for C1 (amended) at a concrete input. -/
theorem mutation_results_always_success_witness :
    runMut {} (.record "x" "\n\n---\n\n") { target := some "old", bak := none } =
      .ok ({ success := true, target_file := "README.md",
             action := "append_record", message := "Appended 1 characters" },
           { target := some "old\n\n---\n\nx", bak := some "old" }) ∧
    ({ success := true, target_file := "README.md",
       action := "append_record",
       message := "Appended 1 characters" } : UpdateResult).success = true :=
  ⟨rfl, mutation_results_always_success {} (.record "x" "\n\n---\n\n")
    { target := some "old", bak := none } _ _ rfl⟩

/-- C10: every `UpdateResult` returned by a `DocumentUpdater` mutation has
`backup_path = None` — `_backup_file`'s return value is discarded by every
caller and no construction site ever sets the field. -/
theorem update_result_backup_path_none (env : UpdEnv) (op : MutOp)
    (fs : FsState) (r : UpdateResult) (fs' : FsState)
    (h : runMut env op fs = .ok (r, fs')) : r.backup_path = none :=
  (runMut_shape h).2

/-- Witness for C10: a run in which the `.bak` backup really is written
(the final state's `bak` holds the previous content) while the returned
result still has `backup_path = none`. -/
theorem update_result_backup_path_none_witness :
    runMut {} (.record "x" "\n\n---\n\n") { target := some "old", bak := none } =
      .ok ({ success := true, target_file := "README.md",
             action := "append_record", message := "Appended 1 characters" },
           { target := some "old\n\n---\n\nx", bak := some "old" }) ∧
    ({ success := true, target_file := "README.md",
       action := "append_record",
       message := "Appended 1 characters" } : UpdateResult).backup_path =
      none :=
  ⟨rfl, update_result_backup_path_none {} (.record "x" "\n\n---\n\n")
    { target := some "old", bak := none } _ _ rfl⟩

/-- C2 (code_bug): selection tries Python, then JavaScript/TypeScript, then
Bash, first `can_analyze` winner; but on a file no variant claims,
`get_analyzer` executes `return BaseAnalyzer()` on an ABC with abstract
methods, which raises `TypeError` instead of returning a generic fallback
analyzer. -/
theorem get_analyzer_selection_and_fallback :
    get_analyzer none "a.py" = .ok .python ∧
    get_analyzer none "b.ts" = .ok .javascript ∧
    get_analyzer none "c.sh" = .ok .bash ∧
    get_analyzer (some "#!/bin/bash\n") "run" = .ok .bash ∧
    get_analyzer none "notes.txt" =
      .error .cantInstantiateAbstractBaseAnalyzer :=
  ⟨rfl, rfl, rfl, rfl, rfl⟩

/-- C4: `glob_match` is a pure function (two calls on the same pair return
the same boolean) and matches the four spec examples. -/
theorem glob_match_pure_and_examples :
    (∀ p f : String, glob_match p f = glob_match p f) ∧
    glob_match "**/*.py" "main.py" = true ∧
    glob_match "**/*.py" "services/auth.py" = true ∧
    glob_match "*.py" "src/main.py" = false ∧
    glob_match "services/**/*.py" "services/nested/file.py" = true :=
  ⟨fun _ _ => rfl, by decide, by decide, by decide, by decide⟩

/-- C8: `PythonAnalyzer.analyze` on a readable source that fails
`ast.parse` returns `layers=["traditional"]`, `actions=[]`, empty
functions/classes/imports, and complexity computed by the generic
line-based heuristic `calculate_complexity` — never a raised error. -/
theorem python_analyze_syntax_error_degrades (fp src cm : String) :
    python_analyze fp (some src) none cm =
      { file_path := fp, language := "Python", layers := ["traditional"],
        actions := [], complexity := some (calculate_complexity src),
        functions := [], classes := [], imports := [],
        metadataFileType := none, metadataHasClasses := none,
        metadataHasTests := none } := rfl

/-- C9 counterexample: on the one-line source `x = 1 < 2` (whose parse is
`Module [Assign [Name x] (Compare (Constant 1) [Lt] [Constant 2])]`,
modelled below with `otherK` for the non-qualifying nodes), the AST-based
estimate counts the `Compare` node and yields 2 while the per-line keyword
heuristic finds no qualifying keyword and yields 1. -/
theorem complexity_implementations_disagree_cex :
    complexity_score_ast
        (.node .moduleK [.node .otherK [.node .otherK [],
          .node .compareK [.node .otherK [], .node .otherK []]]]) = 2 ∧
    calculate_cyclomatic "x = 1 < 2" = 1 ∧ (2 : Nat) ≠ 1 :=
  ⟨by decide, by decide, by decide⟩

/-- C9 (amended): the AST-based estimate and the per-line keyword heuristic
each compute base 1 plus their own qualifying count, so they agree exactly
when the number of qualifying AST nodes equals the number of
keyword-qualifying lines — not on every parseable source. -/
theorem complexity_scores_agree_iff_counts (src : String) (t : PyAst)
    (h : ((walk t).filter (fun n => astQualNode n.kind)).length =
      ((pySplitLines src).filter lineQualifies).length) :
    complexity_score_ast t = calculate_cyclomatic src := by
  rw [complexity_score_ast, calculate_cyclomatic,
    foldl_count (fun n => astQualNode n.kind) (walk t) 1,
    foldl_count lineQualifies (pySplitLines src) 1, h]

/-- Witness for C9 (amended): `if x:` plus a straight line — one `If` node,
one keyword line, both scores 2. -/
theorem complexity_scores_agree_witness :
    ((walk (.node .moduleK [.node .ifK [.node .otherK [],
        .node .otherK [.node .otherK []]]])).filter
      (fun n => astQualNode n.kind)).length =
      ((pySplitLines "if x:\n    y = 1").filter lineQualifies).length ∧
    complexity_score_ast (.node .moduleK [.node .ifK [.node .otherK [],
        .node .otherK [.node .otherK []]]]) =
      calculate_cyclomatic "if x:\n    y = 1" :=
  ⟨by decide, complexity_scores_agree_iff_counts "if x:\n    y = 1" _
    (by decide)⟩

/-- C3 counterexample: with `rowData = {"Type": "service", "Name": "auth"}`
against a table whose only column is `Name`, the duplicate check scans for
the FIRST value (`"service"`), which never occurs in the rendered row
(`| auth |`), so the second identical call inserts the row again and the
final file content differs from the single-call content. -/
theorem append_table_row_not_idempotent_cex :
    append_table_row {} "Services" [("Type", "service"), ("Name", "auth")]
        none { target := some "## Services\n\n| Name |\n| --- |",
               bak := none } =
      .ok ({ success := true, target_file := "README.md",
             action := "append_table_row",
             message := "File updated successfully" },
           { target := some "## Services\n\n| Name |\n| --- |\n| auth |",
             bak := some "## Services\n\n| Name |\n| --- |" }) ∧
    append_table_row {} "Services" [("Type", "service"), ("Name", "auth")]
        none { target := some "## Services\n\n| Name |\n| --- |\n| auth |",
               bak := some "## Services\n\n| Name |\n| --- |" } =
      .ok ({ success := true, target_file := "README.md",
             action := "append_table_row",
             message := "File updated successfully" },
           { target :=
               some "## Services\n\n| Name |\n| --- |\n| auth |\n| auth |",
             bak := some "## Services\n\n| Name |\n| --- |\n| auth |" }) ∧
    ("## Services\n\n| Name |\n| --- |\n| auth |\n| auth |" : String) ≠
      "## Services\n\n| Name |\n| --- |\n| auth |" :=
  ⟨rfl, rfl, by decide⟩

/-- Witness for C3 (amended) at a concrete input satisfying
`appendRowSafe`. -/
theorem append_table_row_idempotent_witness :
    appendRowSafe "Services" [("Name", "auth")] none
      { target := some "## Services\n\n| Name |\n| --- |", bak := none } =
      true ∧
    ∃ r₁ fs₁ r₂,
      append_table_row {} "Services" [("Name", "auth")] none
          { target := some "## Services\n\n| Name |\n| --- |",
            bak := none } = .ok (r₁, fs₁) ∧
      append_table_row {} "Services" [("Name", "auth")] none fs₁ =
        .ok (r₂, fs₁) ∧
      r₂.success = true :=
  ⟨by decide, append_table_row_idempotent {} "Services" [("Name", "auth")]
    none { target := some "## Services\n\n| Name |\n| --- |", bak := none }
    rfl rfl (by decide)⟩

/-- C5 counterexample: `update_section` replaces from TWO lines after the
header, so the line directly under the header (`OLD1`) survives, violating
"replaces exactly the content strictly between that section header and the
next header"; and the second run shows the replacement window ends at ANY
`##`-prefixed line — here the lower-level `### Sub` — not at the next
header of equal-or-higher level. -/
theorem update_section_window_cex :
    update_section {} "Sec" "NEW" none
        { target := some "## Sec\nOLD1\nOLD2\n## Next", bak := none } =
      .ok ({ success := true, target_file := "README.md",
             action := "update_section",
             message := "File updated successfully" },
           { target := some "## Sec\nOLD1\nNEW\n## Next",
             bak := some "## Sec\nOLD1\nOLD2\n## Next" }) ∧
    ("## Sec\nOLD1\nNEW\n## Next" : String) ≠ "## Sec\nNEW\n## Next" ∧
    update_section {} "Top" "NEW" none
        { target := some "## Top\n\nOLD\n### Sub\nKEEP", bak := none } =
      .ok ({ success := true, target_file := "README.md",
             action := "update_section",
             message := "File updated successfully" },
           { target := some "## Top\n\nNEW\n### Sub\nKEEP",
             bak := some "## Top\n\nOLD\n### Sub\nKEEP" }) :=
  ⟨rfl, by decide, rfl⟩

/-- C5 (amended): on an existing target containing the section,
`update_section` keeps the section header AND the line directly after it,
replaces the lines from index `si + 2` up to the next line starting with
`##` (any `##`-prefixed line, regardless of level; end of file when none),
and appends blank line + `## section` + blank line + content when the
section is absent. -/
theorem update_section_replace_window (env : UpdEnv) (c sec nc : String)
    (b : Option String)
    (hdry : env.dry_run = false) (hw : env.writable = true) :
    (∀ si, find_section_index (pySplitLines c) sec = some si →
      ∃ nxt r fs',
        nxt ≤ (pySplitLines c).length ∧
        (∀ j, si + 1 ≤ j → j < nxt →
          pyStartsWith ((pySplitLines c).getD j "") "##" = false) ∧
        (nxt < (pySplitLines c).length →
          pyStartsWith ((pySplitLines c).getD nxt "") "##" = true) ∧
        update_section env sec nc none { target := some c, bak := b } =
          .ok (r, fs') ∧
        fs'.target = some (pyJoinLines
          ((pySplitLines c).take (min (si + 2) (pySplitLines c).length) ++
            pySplitLines nc ++
            (pySplitLines c).drop
              (max (min (si + 2) (pySplitLines c).length)
                (min nxt (pySplitLines c).length))))) ∧
    (find_section_index (pySplitLines c) sec = none →
      ∃ r fs',
        update_section env sec nc none { target := some c, bak := b } =
          .ok (r, fs') ∧
        fs'.target = some (pyJoinLines
          (pySplitLines c ++ ["", "## " ++ sec, ""] ++
            pySplitLines nc))) := by
  constructor
  · intro si hsec
    rcases hf : find_next_section_index (pySplitLines c) (si + 1)
        with _ | k
    · have hrun : update_section env sec nc none
          { target := some c, bak := b } =
          write_file env { target := some c, bak := b }
            (pySliceAssign (pySplitLines c) (si + 2)
              (pySplitLines c).length (pySplitLines nc))
            "update_section" := by
        simp only [update_section, hsec, hf]
      rw [write_file_ok _ _ _ _ hdry hw] at hrun
      refine ⟨(pySplitLines c).length, _, _, le_rfl, ?_, ?_, hrun, rfl⟩
      · intro j hj1 hj2
        exact (findFrom_none_iff _ _ _).mp hf j hj1 hj2
      · intro hlt
        omega
    · obtain ⟨hk1, hk2, hk3, hk4⟩ := findFrom_some_spec _ _ _ _ hf
      have hrun : update_section env sec nc none
          { target := some c, bak := b } =
          write_file env { target := some c, bak := b }
            (pySliceAssign (pySplitLines c) (si + 2) k (pySplitLines nc))
            "update_section" := by
        simp only [update_section, hsec, hf]
      rw [write_file_ok _ _ _ _ hdry hw] at hrun
      refine ⟨k, _, _, by omega, ?_, fun _ => hk3, hrun, rfl⟩
      intro j hj1 hj2
      exact hk4 j hj1 hj2
  · intro hsec
    have hrun : update_section env sec nc none
        { target := some c, bak := b } =
        write_file env { target := some c, bak := b }
          (pySplitLines c ++ ["", "## " ++ sec, ""] ++ pySplitLines nc)
          "update_section" := by
      simp only [update_section, hsec]
    rw [write_file_ok _ _ _ _ hdry hw] at hrun
    exact ⟨_, _, hrun, rfl⟩

/-- Witness for C5 (amended) at a concrete input (section present). -/
theorem update_section_replace_window_witness :
    find_section_index (pySplitLines "## Sec\nOLD1\nOLD2\n## Next") "Sec" =
      some 0 ∧
    ∃ nxt r fs',
      nxt ≤ (pySplitLines "## Sec\nOLD1\nOLD2\n## Next").length ∧
      (∀ j, 0 + 1 ≤ j → j < nxt →
        pyStartsWith
          ((pySplitLines "## Sec\nOLD1\nOLD2\n## Next").getD j "") "##" =
          false) ∧
      (nxt < (pySplitLines "## Sec\nOLD1\nOLD2\n## Next").length →
        pyStartsWith
          ((pySplitLines "## Sec\nOLD1\nOLD2\n## Next").getD nxt "") "##" =
          true) ∧
      update_section {} "Sec" "NEW" none
          { target := some "## Sec\nOLD1\nOLD2\n## Next", bak := none } =
        .ok (r, fs') ∧
      fs'.target = some (pyJoinLines
        ((pySplitLines "## Sec\nOLD1\nOLD2\n## Next").take
            (min (0 + 2)
              (pySplitLines "## Sec\nOLD1\nOLD2\n## Next").length) ++
          pySplitLines "NEW" ++
          (pySplitLines "## Sec\nOLD1\nOLD2\n## Next").drop
            (max
              (min (0 + 2)
                (pySplitLines "## Sec\nOLD1\nOLD2\n## Next").length)
              (min nxt
                (pySplitLines "## Sec\nOLD1\nOLD2\n## Next").length)))) :=
  ⟨by decide,
    (update_section_replace_window {} "## Sec\nOLD1\nOLD2\n## Next" "Sec"
      "NEW" none rfl rfl).1 0 (by decide)⟩

/-- C7 counterexample: in a table with no separator row whose header is
directly followed by a data row, the code's check
`lines[table_start + 1].startswith("|")` is true for the DATA row too, so
the new row is inserted after the first data row — not immediately after
the header row as the claim states. -/
theorem append_table_row_insert_position_cex :
    append_table_row {} "S" [("Name", "bob")] none
        { target := some "## S\n| Name |\n| alice |", bak := none } =
      .ok ({ success := true, target_file := "README.md",
             action := "append_table_row",
             message := "File updated successfully" },
           { target := some "## S\n| Name |\n| alice |\n| bob |",
             bak := some "## S\n| Name |\n| alice |" }) ∧
    ("## S\n| Name |\n| alice |\n| bob |" : String) ≠
      "## S\n| Name |\n| bob |\n| alice |" :=
  ⟨rfl, by decide⟩

/-- C7 (amended): when a table exists and the row is not a duplicate, the
new row is built by looking up rowData under each parsed header column (in
order, missing columns rendering as `""`) and inserted at index
`table_start + 2` whenever the line directly after the table start exists
and starts with `|` — be it separator or data row — and at
`table_start + 1` otherwise. -/
theorem append_table_row_insert_position (env : UpdEnv) (c sec : String)
    (rd : PyDict) (th : Option (List String)) (b : Option String)
    (si ts : Nat)
    (hdry : env.dry_run = false) (hw : env.writable = true)
    (hsec : find_section_index (pySplitLines c) sec = some si)
    (htab : find_table_after_section (pySplitLines c) si = some ts)
    (hre : row_exists (pySplitLines c) ts
      (find_table_end (pySplitLines c) ts) rd = false) :
    ∃ ii r fs',
      ((ts + 1 < (pySplitLines c).length ∧
        pyStartsWith ((pySplitLines c).getD (ts + 1) "") "|" = true ∧
        ii = ts + 2) ∨
       (¬(ts + 1 < (pySplitLines c).length ∧
          pyStartsWith ((pySplitLines c).getD (ts + 1) "") "|" = true) ∧
        ii = ts + 1)) ∧
      append_table_row env sec rd th { target := some c, bak := b } =
        .ok (r, fs') ∧
      fs'.target = some (pyJoinLines
        ((pySplitLines c).take ii ++
          format_table_row
            ((parse_table_row ((pySplitLines c).getD ts "")).map
              (dictGet rd)) ::
          (pySplitLines c).drop ii)) := by
  obtain ⟨hts1, hts2, -, -⟩ := find_table_after_some_spec _ _ _ htab
  rcases hcond : (decide (ts + 1 < (pySplitLines c).length) &&
      pyStartsWith ((pySplitLines c).getD (ts + 1) "") "|") with _ | _
  · have hrun : append_table_row env sec rd th
        { target := some c, bak := b } =
        write_file env { target := some c, bak := b }
          (pyInsertAt (pySplitLines c) (ts + 1)
            (format_table_row
              ((parse_table_row ((pySplitLines c).getD ts "")).map
                (dictGet rd))))
          "append_table_row" := by
      simp only [append_table_row, hsec, htab, hre, hcond,
        Bool.false_eq_true, if_false]
    rw [pyInsertAt_eq _ _ _ (by omega), write_file_ok _ _ _ _ hdry hw]
      at hrun
    refine ⟨ts + 1, _, _, Or.inr ⟨?_, rfl⟩, hrun, rfl⟩
    rintro ⟨hA, hB⟩
    rw [decide_eq_true hA, hB] at hcond
    simp at hcond
  · have hand := (Bool.and_eq_true _ _).mp hcond
    have hA : ts + 1 < (pySplitLines c).length := by
      simpa using hand.1
    have hrun : append_table_row env sec rd th
        { target := some c, bak := b } =
        write_file env { target := some c, bak := b }
          (pyInsertAt (pySplitLines c) (ts + 2)
            (format_table_row
              ((parse_table_row ((pySplitLines c).getD ts "")).map
                (dictGet rd))))
          "append_table_row" := by
      simp only [append_table_row, hsec, htab, hre, hcond,
        Bool.false_eq_true, if_false, if_true]
    rw [pyInsertAt_eq _ _ _ (by omega), write_file_ok _ _ _ _ hdry hw]
      at hrun
    exact ⟨ts + 2, _, _, Or.inl ⟨hA, hand.2, rfl⟩, hrun, rfl⟩

/-- Witness for C7 (amended) at a concrete input. -/
theorem append_table_row_insert_position_witness :
    find_section_index (pySplitLines "## S\n| Name |\n| alice |") "S" =
      some 0 ∧
    find_table_after_section (pySplitLines "## S\n| Name |\n| alice |") 0 =
      some 1 ∧
    row_exists (pySplitLines "## S\n| Name |\n| alice |") 1
      (find_table_end (pySplitLines "## S\n| Name |\n| alice |") 1)
      [("Name", "bob")] = false ∧
    ∃ ii r fs',
      ((1 + 1 < (pySplitLines "## S\n| Name |\n| alice |").length ∧
        pyStartsWith
          ((pySplitLines "## S\n| Name |\n| alice |").getD (1 + 1) "")
          "|" = true ∧
        ii = 1 + 2) ∨
       (¬(1 + 1 < (pySplitLines "## S\n| Name |\n| alice |").length ∧
          pyStartsWith
            ((pySplitLines "## S\n| Name |\n| alice |").getD (1 + 1) "")
            "|" = true) ∧
        ii = 1 + 1)) ∧
      append_table_row {} "S" [("Name", "bob")] none
          { target := some "## S\n| Name |\n| alice |", bak := none } =
        .ok (r, fs') ∧
      fs'.target = some (pyJoinLines
        ((pySplitLines "## S\n| Name |\n| alice |").take ii ++
          format_table_row
            ((parse_table_row
              ((pySplitLines "## S\n| Name |\n| alice |").getD 1 "")).map
              (dictGet [("Name", "bob")])) ::
          (pySplitLines "## S\n| Name |\n| alice |").drop ii)) :=
  ⟨by decide, by decide, by decide,
    append_table_row_insert_position {} "## S\n| Name |\n| alice |" "S"
      [("Name", "bob")] none none 0 1 rfl rfl (by decide) (by decide)
      (by decide)⟩

lemma getD_mem_of_lt {l : List String} {i : Nat} (h : i < l.length) :
    l.getD i "" ∈ l := by
  induction l generalizing i with
  | nil => simp at h
  | cons a l ih =>
    cases i with
    | zero => simp
    | succ n =>
      simp only [List.getD_cons_succ]
      exact List.mem_cons_of_mem a (ih (by simpa using h))

lemma pySliceAssign_eq {α : Type _} (l : List α) (a bb : Nat)
    (xs : List α) :
    pySliceAssign l a bb xs =
      l.take (min a l.length) ++ xs ++
        l.drop (max (min a l.length) (min bb l.length)) := rfl

/-- `update_section` idempotence, absent-section case: the first call
appends `["", "## sec", ""] ++ content lines`; the second call finds the
appended header and replaces exactly those content lines with themselves. -/
lemma update_section_idem_absent (env : UpdEnv) (sec nc content : String)
    (b : Option String)
    (hdry : env.dry_run = false) (hw : env.writable = true)
    (hsecnl : noNlStr sec = true)
    (hstrip : pyStrip ("## " ++ sec) = "## " ++ sec)
    (hnc : ∀ l ∈ pySplitLines nc,
      pyStartsWith l "##" = false ∧ matchesSection sec l = false)
    (hsec : find_section_index (pySplitLines content) sec = none) :
    ∃ r₁ fs₁ r₂ fs₂,
      update_section env sec nc none { target := some content, bak := b } =
        .ok (r₁, fs₁) ∧
      update_section env sec nc none fs₁ = .ok (r₂, fs₂) ∧
      fs₂.target = fs₁.target := by
  set lines := pySplitLines content with hlines
  set n := lines.length with hnn
  set ncL := pySplitLines nc with hncL
  set L : List String := lines ++ ["", "## " ++ sec, ""] ++ ncL with hL
  have hpre : (lines ++ ["", "## " ++ sec, ""]).length = n + 3 := by
    rw [List.length_append]
    rfl
  have hLlen : L.length = n + 3 + ncL.length := by
    rw [hL, List.length_append, hpre]
  have hrun1 : update_section env sec nc none
      { target := some content, bak := b } =
      write_file env { target := some content, bak := b } L
        "update_section" := by
    simp only [update_section, hsec]
  rw [write_file_ok _ _ _ _ hdry hw] at hrun1
  have hnl : ∀ l ∈ L, noNlStr l = true := by
    intro l hl
    rw [hL] at hl
    rcases List.mem_append.mp hl with h1 | h1
    · rcases List.mem_append.mp h1 with h2 | h2
      · exact noNl_mem_pySplitLines content l h2
      · simp only [List.mem_cons, List.not_mem_nil, or_false] at h2
        rcases h2 with rfl | rfl | rfl
        · decide
        · exact noNl_header sec hsecnl
        · decide
    · exact noNl_mem_pySplitLines nc l h1
  have hsplit : pySplitLines (pyJoinLines L) = L := by
    apply pySplit_pyJoin L _ hnl
    intro hemp
    have := congrArg List.length hemp
    rw [hLlen] at this
    simp at this
  have hsec2 : find_section_index L sec = some (n + 1) := by
    apply find_section_index_eq_some
    · rw [hLlen]; omega
    · rw [hL, getD_append_left _ _ _ (by rw [hpre]; omega),
        getD_append_right _ _ _ (by omega)]
      have : n + 1 - n = 1 := by omega
      rw [this]
      simpa using matchesSection_self sec hstrip
    · intro j hj
      rcases Nat.lt_or_ge j n with h1 | h1
      · rw [hL, getD_append_left _ _ _ (by rw [hpre]; omega),
          getD_append_left _ _ _ h1]
        exact (findFrom_none_iff _ _ _).mp hsec j (by omega) h1
      · obtain rfl : j = n := by omega
        rw [hL, getD_append_left _ _ _ (by rw [hpre]; omega),
          getD_append_right _ _ _ (by omega)]
        simpa using matchesSection_empty sec
  have hnext2 : find_next_section_index L (n + 2) = none := by
    rw [find_next_section_index, findFrom_none_iff]
    intro j hj1 hj2
    rcases Nat.lt_or_ge j (n + 3) with h1 | h1
    · obtain rfl : j = n + 2 := by omega
      rw [hL, getD_append_left _ _ _ (by rw [hpre]; omega),
        getD_append_right _ _ _ (by omega)]
      have : n + 2 - n = 2 := by omega
      rw [this]
      simp only [List.getD_cons_succ, List.getD_cons_zero]
      decide
    · rw [hL, getD_append_right _ _ _ (by rw [hpre]; omega), hpre]
      refine (hnc _ (getD_mem_of_lt ?_)).1
      rw [hLlen] at hj2
      omega
  have hslice2 : pySliceAssign L (n + 3) L.length ncL = L := by
    rw [pySliceAssign_eq]
    rw [Nat.min_eq_left (by rw [hLlen]; omega), Nat.min_self,
      Nat.max_eq_right (by rw [hLlen]; omega), List.drop_length,
      List.append_nil]
    conv_rhs => rw [hL]
    congr 1
    rw [hL, ← hpre, List.take_left]
  have hrun2 : ∀ b₂ : Option String, ∃ r₂ fs₂,
      update_section env sec nc none
        { target := some (pyJoinLines L), bak := b₂ } = .ok (r₂, fs₂) ∧
      fs₂.target = some (pyJoinLines L) := by
    intro b₂
    have h2 : update_section env sec nc none
        { target := some (pyJoinLines L), bak := b₂ } =
        write_file env { target := some (pyJoinLines L), bak := b₂ }
          (pySliceAssign L (n + 3) L.length ncL) "update_section" := by
      simp only [update_section, hsplit, hsec2, hnext2]
    rw [hslice2, write_file_ok _ _ _ _ hdry hw] at h2
    exact ⟨_, _, h2, rfl⟩
  obtain ⟨r₂, fs₂, h2, htgt⟩ := hrun2 _
  exact ⟨_, _, r₂, fs₂, hrun1, h2, htgt⟩

lemma take_length_append {α : Type _} (l₁ l₂ : List α) (m : Nat)
    (h : l₁.length = m) : (l₁ ++ l₂).take m = l₁ := by
  rw [← h, List.take_left]

/-- `update_section` idempotence, found-section case: the first call
replaces `lines[si+2 : next ##]`; rerunning replaces the same window with
the same content. -/
lemma update_section_idem_found (env : UpdEnv) (sec nc content : String)
    (b : Option String) (si : Nat)
    (hdry : env.dry_run = false) (hw : env.writable = true)
    (hnc : ∀ l ∈ pySplitLines nc,
      pyStartsWith l "##" = false ∧ matchesSection sec l = false)
    (hsec : find_section_index (pySplitLines content) sec = some si)
    (hidx : si + 2 ≤ (pySplitLines content).length)
    (hnothash :
      pyStartsWith ((pySplitLines content).getD (si + 1) "") "##" = false) :
    ∃ r₁ fs₁ r₂ fs₂,
      update_section env sec nc none { target := some content, bak := b } =
        .ok (r₁, fs₁) ∧
      update_section env sec nc none fs₁ = .ok (r₂, fs₂) ∧
      fs₂.target = fs₁.target := by
  obtain ⟨-, hsi_lt, hsi_match, hsi_first⟩ := findFrom_some_spec _ _ _ _ hsec
  have hnll : ∀ l ∈ pySplitLines content, noNlStr l = true :=
    noNl_mem_pySplitLines content
  set lines := pySplitLines content with hlines
  set n := lines.length with hnn
  set ncL := pySplitLines nc with hncL
  have htakelen : (lines.take (si + 2)).length = si + 2 := by
    rw [List.length_take]
    omega
  rcases hnx : find_next_section_index lines (si + 1) with _ | k
  · -- no later `##` header: the window extends to end of file
    set L : List String := lines.take (si + 2) ++ ncL with hL
    have hLlen : L.length = si + 2 + ncL.length := by
      rw [hL, List.length_append, htakelen]
    have hslice1 : pySliceAssign lines (si + 2) lines.length ncL = L := by
      rw [pySliceAssign_eq, Nat.min_eq_left hidx, Nat.min_self,
        Nat.max_eq_right hidx, List.drop_length, List.append_nil]
    have hrun1 : update_section env sec nc none
        { target := some content, bak := b } =
        write_file env { target := some content, bak := b }
          (pySliceAssign lines (si + 2) lines.length ncL)
          "update_section" := by
      simp only [update_section, hsec, hnx]
    rw [hslice1, write_file_ok _ _ _ _ hdry hw] at hrun1
    have hnl : ∀ l ∈ L, noNlStr l = true := by
      intro l hl
      rcases List.mem_append.mp hl with h1 | h1
      · exact hnll l (List.mem_of_mem_take h1)
      · exact noNl_mem_pySplitLines nc l h1
    have hsplit : pySplitLines (pyJoinLines L) = L := by
      apply pySplit_pyJoin L _ hnl
      intro hemp
      have := congrArg List.length hemp
      rw [hLlen] at this
      simp at this
    have hsec2 : find_section_index L sec = some si := by
      apply find_section_index_eq_some
      · rw [hLlen]; omega
      · rw [hL, getD_append_left _ _ _ (by rw [htakelen]; omega),
          getD_take _ _ _ (by omega)]
        exact hsi_match
      · intro j hj
        rw [hL, getD_append_left _ _ _ (by rw [htakelen]; omega),
          getD_take _ _ _ (by omega)]
        exact hsi_first j (by omega) hj
    have hnext2 : find_next_section_index L (si + 2) = none := by
      rw [find_next_section_index, findFrom_none_iff]
      intro j hj1 hj2
      rw [hL, getD_append_right _ _ _ (by rw [htakelen]; omega), htakelen]
      refine (hnc _ (getD_mem_of_lt ?_)).1
      rw [hL, List.length_append, htakelen] at hj2
      omega
    have hslice2 : pySliceAssign L (si + 2) L.length ncL = L := by
      rw [pySliceAssign_eq,
        Nat.min_eq_left (by rw [hLlen]; omega), Nat.min_self,
        Nat.max_eq_right (by rw [hLlen]; omega), List.drop_length,
        List.append_nil]
      conv_rhs => rw [hL]
      congr 1
      rw [hL]
      exact take_length_append _ _ _ htakelen
    have hnext2' : find_next_section_index L (si + 1) = none := by
      rw [find_next_section_index, findFrom_none_iff]
      intro j hj1 hj2
      rcases Nat.lt_or_ge j (si + 2) with h1 | h1
      · obtain rfl : j = si + 1 := by omega
        rw [hL, getD_append_left _ _ _ (by rw [htakelen]; omega),
          getD_take _ _ _ (by omega)]
        exact hnothash
      · rw [hL, getD_append_right _ _ _ (by rw [htakelen]; omega), htakelen]
        refine (hnc _ (getD_mem_of_lt ?_)).1
        rw [hLlen] at hj2
        omega
    have hrun2 : ∀ b₂ : Option String, ∃ r₂ fs₂,
        update_section env sec nc none
          { target := some (pyJoinLines L), bak := b₂ } = .ok (r₂, fs₂) ∧
        fs₂.target = some (pyJoinLines L) := by
      intro b₂
      have h2 : update_section env sec nc none
          { target := some (pyJoinLines L), bak := b₂ } =
          write_file env { target := some (pyJoinLines L), bak := b₂ }
            (pySliceAssign L (si + 2) L.length ncL) "update_section" := by
        simp only [update_section, hsplit, hsec2, hnext2']
      rw [hslice2, write_file_ok _ _ _ _ hdry hw] at h2
      exact ⟨_, _, h2, rfl⟩
    obtain ⟨r₂, fs₂, h2, htgt⟩ := hrun2 _
    exact ⟨_, _, r₂, fs₂, hrun1, h2, htgt⟩
  · -- a later `##` header at k bounds the window
    obtain ⟨hk1, hk2, hk3, hk4⟩ := findFrom_some_spec _ _ _ _ hnx
    have hk5 : si + 2 ≤ k := by
      rcases Nat.eq_or_lt_of_le hk1 with heq | hlt
      · exfalso
        rw [← heq] at hk3
        rw [hk3] at hnothash
        simp at hnothash
      · omega
    set L : List String := lines.take (si + 2) ++ ncL ++ lines.drop k
      with hL
    have hprelen : (lines.take (si + 2) ++ ncL).length =
        si + 2 + ncL.length := by
      rw [List.length_append, htakelen]
    have hLlen : L.length = si + 2 + ncL.length + (n - k) := by
      rw [hL, List.length_append, hprelen, List.length_drop]
    have hslice1 : pySliceAssign lines (si + 2) k ncL = L := by
      rw [pySliceAssign_eq, Nat.min_eq_left hidx,
        Nat.min_eq_left (Nat.le_of_lt hk2), Nat.max_eq_right hk5]
    have hrun1 : update_section env sec nc none
        { target := some content, bak := b } =
        write_file env { target := some content, bak := b }
          (pySliceAssign lines (si + 2) k ncL) "update_section" := by
      simp only [update_section, hsec, hnx]
    rw [hslice1, write_file_ok _ _ _ _ hdry hw] at hrun1
    have hnl : ∀ l ∈ L, noNlStr l = true := by
      intro l hl
      rcases List.mem_append.mp hl with h1 | h1
      · rcases List.mem_append.mp h1 with h2 | h2
        · exact hnll l (List.mem_of_mem_take h2)
        · exact noNl_mem_pySplitLines nc l h2
      · exact hnll l (List.mem_of_mem_drop h1)
    have hsplit : pySplitLines (pyJoinLines L) = L := by
      apply pySplit_pyJoin L _ hnl
      intro hemp
      have := congrArg List.length hemp
      rw [hLlen] at this
      simp at this
    have hsec2 : find_section_index L sec = some si := by
      apply find_section_index_eq_some
      · rw [hLlen]; omega
      · rw [hL, getD_append_left _ _ _ (by rw [hprelen]; omega),
          getD_append_left _ _ _ (by rw [htakelen]; omega),
          getD_take _ _ _ (by omega)]
        exact hsi_match
      · intro j hj
        rw [hL, getD_append_left _ _ _ (by rw [hprelen]; omega),
          getD_append_left _ _ _ (by rw [htakelen]; omega),
          getD_take _ _ _ (by omega)]
        exact hsi_first j (by omega) hj
    have hnext2 : find_next_section_index L (si + 1) =
        some (si + 2 + ncL.length) := by
      rw [find_next_section_index]
      apply findFrom_some_of
      · omega
      · rw [hLlen]; omega
      · rw [hL, getD_append_right _ _ _ (by rw [hprelen])]
        rw [hprelen, Nat.sub_self, getD_drop, Nat.add_zero]
        exact hk3
      · intro j hj1 hj2
        rcases Nat.lt_or_ge j (si + 2) with h1 | h1
        · obtain rfl : j = si + 1 := by omega
          rw [hL, getD_append_left _ _ _ (by rw [hprelen]; omega),
            getD_append_left _ _ _ (by rw [htakelen]; omega),
            getD_take _ _ _ (by omega)]
          exact hnothash
        · rw [hL, getD_append_left _ _ _ (by rw [hprelen]; omega),
            getD_append_right _ _ _ (by rw [htakelen]; omega), htakelen]
          refine (hnc _ (getD_mem_of_lt ?_)).1
          omega
    have hslice2 : pySliceAssign L (si + 2) (si + 2 + ncL.length) ncL =
        L := by
      rw [pySliceAssign_eq,
        Nat.min_eq_left (by rw [hLlen]; omega),
        Nat.min_eq_left (by rw [hLlen]; omega),
        Nat.max_eq_right (by omega)]
      have htake : L.take (si + 2) = lines.take (si + 2) := by
        rw [hL, List.append_assoc]
        exact take_length_append _ _ _ htakelen
      have hdrop : L.drop (si + 2 + ncL.length) = lines.drop k := by
        rw [hL, ← hprelen, List.drop_left]
      rw [htake, hdrop, hL]
    have hrun2 : ∀ b₂ : Option String, ∃ r₂ fs₂,
        update_section env sec nc none
          { target := some (pyJoinLines L), bak := b₂ } = .ok (r₂, fs₂) ∧
        fs₂.target = some (pyJoinLines L) := by
      intro b₂
      have h2 : update_section env sec nc none
          { target := some (pyJoinLines L), bak := b₂ } =
          write_file env { target := some (pyJoinLines L), bak := b₂ }
            (pySliceAssign L (si + 2) (si + 2 + ncL.length) ncL)
            "update_section" := by
        simp only [update_section, hsplit, hsec2, hnext2]
      rw [hslice2, write_file_ok _ _ _ _ hdry hw] at h2
      exact ⟨_, _, h2, rfl⟩
    obtain ⟨r₂, fs₂, h2, htgt⟩ := hrun2 _
    exact ⟨_, _, r₂, fs₂, hrun1, h2, htgt⟩

/-- C6 counterexample: on a nonexistent target the first call writes
`"## S\n\nNEW\n"` but the second call drops the trailing newline —
the file state after the second call differs from the state after the
first, so `update_section` does not converge for every starting state. -/
theorem update_section_not_idempotent_cex :
    update_section {} "S" "NEW" none { target := none, bak := none } =
      .ok ({ success := true, target_file := "README.md",
             action := "update_section",
             message := "Created new file with section" },
           { target := some "## S\n\nNEW\n", bak := none }) ∧
    update_section {} "S" "NEW" none
        { target := some "## S\n\nNEW\n", bak := none } =
      .ok ({ success := true, target_file := "README.md",
             action := "update_section",
             message := "File updated successfully" },
           { target := some "## S\n\nNEW", bak := some "## S\n\nNEW\n" }) ∧
    ("## S\n\nNEW" : String) ≠ "## S\n\nNEW\n" :=
  ⟨rfl, rfl, by decide⟩

/-- C6 (amended): for every starting state satisfying
`updateSectionSafe` — target file exists, clean single-line section name,
no content line is a `##` line or matches the section patterns, and an
existing section header is neither on the last line nor directly followed
by a `##` line — two identical `update_section` calls converge: the target
content after the second call equals the content after the first. -/
theorem update_section_idempotent (env : UpdEnv) (sec nc : String)
    (fs : FsState)
    (hdry : env.dry_run = false) (hw : env.writable = true)
    (hsafe : updateSectionSafe sec nc fs = true) :
    ∃ r₁ fs₁ r₂ fs₂,
      update_section env sec nc none fs = .ok (r₁, fs₁) ∧
      update_section env sec nc none fs₁ = .ok (r₂, fs₂) ∧
      fs₂.target = fs₁.target := by
  obtain ⟨tgt, b⟩ := fs
  simp only [updateSectionSafe, Bool.and_eq_true] at hsafe
  obtain ⟨⟨⟨hA, hB⟩, hC⟩, hD⟩ := hsafe
  have hB' : pyStrip ("## " ++ sec) = "## " ++ sec := by simpa using hB
  have hC' : ∀ l ∈ pySplitLines nc,
      pyStartsWith l "##" = false ∧ matchesSection sec l = false := by
    intro l hl
    have h := List.all_eq_true.mp hC l hl
    rw [Bool.and_eq_true] at h
    exact ⟨by simpa using h.1, by simpa using h.2⟩
  rcases htgt : tgt with _ | content
  · subst htgt
    simp at hD
  · subst htgt
    rcases hsec : find_section_index (pySplitLines content) sec with _ | si
    · exact update_section_idem_absent env sec nc content b hdry hw hA hB'
        hC' hsec
    · have hD' : (decide (si + 2 ≤ (pySplitLines content).length) &&
          !(pyStartsWith ((pySplitLines content).getD (si + 1) "") "##")) =
          true := by
        simpa [hsec] using hD
      rw [Bool.and_eq_true] at hD'
      exact update_section_idem_found env sec nc content b si hdry hw hC'
        hsec (by simpa using hD'.1) (by simpa using hD'.2)

/-- Witness for C6 (amended) at a concrete input satisfying
`updateSectionSafe`. -/
theorem update_section_idempotent_witness :
    updateSectionSafe "Sec" "NEW"
      { target := some "## Sec\nX\nOLD\n## Next", bak := none } = true ∧
    ∃ r₁ fs₁ r₂ fs₂,
      update_section {} "Sec" "NEW" none
          { target := some "## Sec\nX\nOLD\n## Next", bak := none } =
        .ok (r₁, fs₁) ∧
      update_section {} "Sec" "NEW" none fs₁ = .ok (r₂, fs₂) ∧
      fs₂.target = fs₁.target :=
  ⟨by decide, update_section_idempotent {} "Sec" "NEW"
    { target := some "## Sec\nX\nOLD\n## Next", bak := none } rfl rfl
    (by decide)⟩

end GitDocHook
